import Mathlib

/-!
# Power management of the UHCI host controller driver

A shallow embedding of `AppleUSBUHCI_PwrMgmt.cpp`: the controller object is a record
of the hardware registers the file touches, the frame list, and the driver fields it
reads or assigns; every method is a function on that record.  Each register write, frame
list store, delay and call of a helper defined outside the file is appended to `trace`,
so that the order of the effects of a method can be stated.

Words are natural numbers.  A value crossing a 16 or 32 bit register access is reduced
modulo the width of the access; the remaining word operations (or, and, clearing bits)
cannot leave the width of their operands.

The search for the ExpressCard port runs over a tree of registry entries; the registry
services and library calls it uses belong to the kernel and are parameters (`Platform`).
-/

namespace AppleUSBUHCI

/-- The constants of the headers included by `AppleUSBUHCI_PwrMgmt.cpp` (`AppleUSBUHCI.h`,
`USB.h`).  The headers are outside the file under verification, so the values are parameters
of the model; `HostToUSBLong` is the byte order conversion of a 32 bit word. -/
structure Consts where
  kUHCI_CMD_RS : Nat
  kUHCI_CMD_HCRESET : Nat
  kUHCI_CMD_EGSM : Nat
  kUHCI_CMD_FGR : Nat
  kUHCI_CMD_CF : Nat
  kUHCI_CMD_MAXP : Nat
  kUHCI_INTR_TIE : Nat
  kUHCI_INTR_RIE : Nat
  kUHCI_INTR_IOCE : Nat
  kUHCI_INTR_SPIE : Nat
  kUHCI_PORTSC_MASK : Nat
  kUHCI_PORTSC_PED : Nat
  kUHCI_PORTSC_SUSPEND : Nat
  kUHCI_PORTSC_OCI : Nat
  kUHCI_FRAME_T : Nat
  kUHCI_NVFRAMES : Nat
  kUHCI_RESET_DELAY : Nat
  kErrataUHCISupportsOvercurrent : Nat
  kErrataSupportsPortResumeEnable : Nat
  kUHCI_PCI_RES : Nat
  HostToUSBLong : Nat → Nat

/-- The values of `_myBusState` (the spec: Running, Suspended, Halted-for-reset). -/
inductive BusState where
  | kUSBBusStateReset
  | kUSBBusStateSuspended
  | kUSBBusStateRunning
  deriving DecidableEq, Repr

/-- The return codes used by the file. -/
inductive IOReturn where
  | kIOReturnSuccess
  | kIOReturnTimeout
  deriving DecidableEq, Repr

/-- The 16 bit registers accessed through `ioRead16` and `ioWrite16` outside log lines. -/
inductive Reg16 where
  | kUHCI_CMD
  | kUHCI_INTR
  deriving DecidableEq, Repr

/-- The 32 bit register written through `ioWrite32`. -/
inductive Reg32 where
  | kUHCI_FRBASEADDR
  deriving DecidableEq, Repr

/-- One externally visible effect of the driver, in program order. -/
inductive Effect where
  | ioWrite16 (reg : Reg16) (value : Nat)
  | ioWrite32 (reg : Reg32) (value : Nat)
  | frameWrite (i : Nat) (value : Nat)
  | WritePortStatus (port : Nat) (value : Nat)
  | IOSleep (ms : Nat)
  | Run (run : Bool)
  | Command (cmd : Nat)
  | EnableUSBInterrupt (enable : Bool)
  | configWrite8 (offset : Nat) (data : Nat)
  | super_callPlatformFunction (functionName : String)
  deriving DecidableEq, Repr

/-- The controller object: hardware registers, the frame list, and the driver fields used by
the power management methods. -/
structure UHCI where
  /-- Content of the command register `kUHCI_CMD`. -/
  cmd : Nat
  /-- Content of the interrupt enable register `kUHCI_INTR`. -/
  intr : Nat
  /-- Content of the frame list base address register `kUHCI_FRBASEADDR`. -/
  frbase : Nat
  /-- Hardware status of the root hub ports, by port index. -/
  portsc : Nat → Nat
  /-- The memory behind `_frameList`, by entry index. -/
  _frameList : Nat → Nat
  /-- The field `_framesPaddr`. -/
  _framesPaddr : Nat
  /-- The field `_saveInterrupts`. -/
  _saveInterrupts : Nat
  /-- The field `_myBusState`. -/
  _myBusState : BusState
  /-- The field `_errataBits`. -/
  _errataBits : Nat
  /-- The field `_ExpressCardPort`: the port of the ExpressCard slot, counted from 1, or 0. -/
  _ExpressCardPort : Nat
  /-- The field `_badExpressCardAttached`. -/
  _badExpressCardAttached : Bool
  /-- The state of the interrupt toggle driven by `EnableUSBInterrupt`. -/
  usbInterruptEnabled : Bool
  /-- The effects performed so far, oldest first. -/
  trace : List Effect

/-- The C expression `x & ~m` on unsigned words: the bits of `m` cleared in `x`. -/
def clearBits (x m : Nat) : Nat := x ^^^ (x &&& m)

/-- A C loop `for (i = 0; i < n; i++) body(i)`. -/
def forLoop {σ : Type} (body : Nat → σ → σ) : Nat → σ → σ
  | 0, s => s
  | n + 1, s => body n (forLoop body n s)

/-- The call `ioRead16(reg)`: the content of the register, as a 16 bit value. -/
def ioRead16 (reg : Reg16) (s : UHCI) : Nat :=
  match reg with
  | .kUHCI_CMD => s.cmd % 65536
  | .kUHCI_INTR => s.intr % 65536

/-- The call `ioWrite16(reg, value)`. -/
def ioWrite16 (reg : Reg16) (value : Nat) (s : UHCI) : UHCI :=
  match reg with
  | .kUHCI_CMD =>
    { s with cmd := value % 65536, trace := s.trace ++ [.ioWrite16 reg (value % 65536)] }
  | .kUHCI_INTR =>
    { s with intr := value % 65536, trace := s.trace ++ [.ioWrite16 reg (value % 65536)] }

/-- The call `ioWrite32(reg, value)`. -/
def ioWrite32 (reg : Reg32) (value : Nat) (s : UHCI) : UHCI :=
  match reg with
  | .kUHCI_FRBASEADDR =>
    { s with frbase := value % 4294967296,
             trace := s.trace ++ [.ioWrite32 reg (value % 4294967296)] }

/-- The kernel call `IOSleep(ms)`: the delay is recorded. -/
def IOSleep (ms : Nat) (s : UHCI) : UHCI :=
  { s with trace := s.trace ++ [.IOSleep ms] }

/-- Modelled from the spec: `AppleUSBUHCI::Run` is defined outside the file under verification.
The spec describes it as "start the controller (set run bit)" and "stop the controller
(clear run bit ...)": the run bit of the command register is set or cleared and the call is
recorded as one effect. -/
def Run (K : Consts) (run : Bool) (s : UHCI) : UHCI :=
  let cmd := ioRead16 .kUHCI_CMD s
  let cmd := if run then cmd ||| K.kUHCI_CMD_RS else clearBits cmd K.kUHCI_CMD_RS
  { s with cmd := cmd % 65536, trace := s.trace ++ [.Run run] }

/-- Modelled from the spec: `AppleUSBUHCI::Command` is defined outside the file under verification.
The spec describes its uses as "issue a hardware reset command" and "set
max-packet+configured bits": the argument becomes the content of the command register and
the call is recorded as one effect. -/
def Command (cmd : Nat) (s : UHCI) : UHCI :=
  { s with cmd := cmd % 65536, trace := s.trace ++ [.Command cmd] }

/-- Modelled from the spec: `EnableUSBInterrupt` is defined outside the file under verification.
The spec describes it as "the underlying global interrupt enable toggle". -/
def EnableUSBInterrupt (enable : Bool) (s : UHCI) : UHCI :=
  { s with usbInterruptEnabled := enable, trace := s.trace ++ [.EnableUSBInterrupt enable] }

/-- Modelled from the spec: `ReadPortStatus` is defined outside the file under verification.
The spec: "a per-port bitfield snapshot ... always re-read from hardware". -/
def ReadPortStatus (port : Nat) (s : UHCI) : Nat := s.portsc port % 65536

/-- Modelled from the spec: `WritePortStatus` is defined outside the file under verification.
The write is recorded; how the port reacts to it is hardware behaviour no method of the
file depends on, and the modelled port status is left as it is. -/
def WritePortStatus (port : Nat) (value : Nat) (s : UHCI) : UHCI :=
  { s with trace := s.trace ++ [.WritePortStatus port (value % 65536)] }

/-- The mask `HostToUSBLong(kUHCI_FRAME_T)`, a 32 bit word. -/
def frameT (K : Consts) : Nat := K.HostToUSBLong K.kUHCI_FRAME_T % 4294967296

/-- The statement `_frameList[i] |= mask`. -/
def frameListOr (mask : Nat) (i : Nat) (s : UHCI) : UHCI :=
  let v := s._frameList i ||| mask
  { s with _frameList := fun j => if j = i then v else s._frameList j,
           trace := s.trace ++ [.frameWrite i v] }

/-- The statement `_frameList[i] &= ~mask`. -/
def frameListAndNot (mask : Nat) (i : Nat) (s : UHCI) : UHCI :=
  let v := clearBits (s._frameList i) mask
  { s with _frameList := fun j => if j = i then v else s._frameList j,
           trace := s.trace ++ [.frameWrite i v] }

/-- The method `AppleUSBUHCI::ResumeController`. -/
def ResumeController (K : Consts) (s : UHCI) : UHCI :=
  let cmd := ioRead16 .kUHCI_CMD s
  if cmd &&& K.kUHCI_CMD_RS ≠ 0 then
    -- already running - returning
    s
  else
    let s := forLoop (frameListOr (frameT K)) K.kUHCI_NVFRAMES s
    let (cmd, s) :=
      if cmd &&& K.kUHCI_CMD_EGSM ≠ 0 then
        let cmd := cmd ||| K.kUHCI_CMD_FGR
        let s := ioWrite16 .kUHCI_CMD cmd s
        (ioRead16 .kUHCI_CMD s, s)
      else (cmd, s)
    let (cmd, s) :=
      if cmd &&& K.kUHCI_CMD_FGR ≠ 0 then
        let s := IOSleep 20 s
        let cmd := clearBits cmd K.kUHCI_CMD_FGR
        let cmd := clearBits cmd K.kUHCI_CMD_EGSM
        (cmd, ioWrite16 .kUHCI_CMD cmd s)
      else (cmd, s)
    let s :=
      if cmd &&& (K.kUHCI_CMD_MAXP ||| K.kUHCI_CMD_CF) ≠ (K.kUHCI_CMD_MAXP ||| K.kUHCI_CMD_CF) then
        ioWrite16 .kUHCI_CMD (cmd ||| (K.kUHCI_CMD_MAXP ||| K.kUHCI_CMD_CF)) s
      else s
    -- restore the frame list register
    let s := if s._framesPaddr ≠ 0 then ioWrite32 .kUHCI_FRBASEADDR s._framesPaddr s else s
    let s := Run K true s
    -- wait 10 ms for the device to recover
    let s := IOSleep 10 s
    -- restore the list
    forLoop (frameListAndNot (frameT K)) K.kUHCI_NVFRAMES s

/-- The statements of `ResumeController` between its two frame list loops up to the write of
the frame list base register, entered with the value `cmd` read at the top of the method;
a restatement used to reason about the method in pieces (see `ResumeController_eq`). -/
def resumeCommand (K : Consts) (cmd : Nat) (s : UHCI) : UHCI :=
  let (cmd, s) :=
    if cmd &&& K.kUHCI_CMD_EGSM ≠ 0 then
      let cmd := cmd ||| K.kUHCI_CMD_FGR
      let s := ioWrite16 .kUHCI_CMD cmd s
      (ioRead16 .kUHCI_CMD s, s)
    else (cmd, s)
  let (cmd, s) :=
    if cmd &&& K.kUHCI_CMD_FGR ≠ 0 then
      let s := IOSleep 20 s
      let cmd := clearBits cmd K.kUHCI_CMD_FGR
      let cmd := clearBits cmd K.kUHCI_CMD_EGSM
      (cmd, ioWrite16 .kUHCI_CMD cmd s)
    else (cmd, s)
  let s :=
    if cmd &&& (K.kUHCI_CMD_MAXP ||| K.kUHCI_CMD_CF) ≠ (K.kUHCI_CMD_MAXP ||| K.kUHCI_CMD_CF) then
      ioWrite16 .kUHCI_CMD (cmd ||| (K.kUHCI_CMD_MAXP ||| K.kUHCI_CMD_CF)) s
    else s
  if s._framesPaddr ≠ 0 then ioWrite32 .kUHCI_FRBASEADDR s._framesPaddr s else s

/-- The body of the port loop of `SuspendController` (the branches that only log are left
out). -/
def suspendPort (K : Consts) (i : Nat) (s : UHCI) : UHCI :=
  let value := ReadPortStatus i s &&& K.kUHCI_PORTSC_MASK
  if s._errataBits &&& K.kErrataUHCISupportsOvercurrent ≠ 0 ∧ value &&& K.kUHCI_PORTSC_OCI ≠ 0 then
    WritePortStatus i K.kUHCI_PORTSC_OCI s
  else s

/-- The method `AppleUSBUHCI::SuspendController`. -/
def SuspendController (K : Consts) (s : UHCI) : UHCI :=
  -- Stop the controller
  let s := Run K false s
  let s := forLoop (suspendPort K) 2 s
  -- Put the controller in Global Suspend
  let cmd := clearBits (ioRead16 .kUHCI_CMD s) K.kUHCI_CMD_FGR
  let cmd := cmd ||| K.kUHCI_CMD_EGSM
  let s := ioWrite16 .kUHCI_CMD cmd s
  let s := { s with _myBusState := .kUSBBusStateSuspended }
  IOSleep 3 s

/-- The method `AppleUSBUHCI::SaveControllerStateForSleep`. -/
def SaveControllerStateForSleep (K : Consts) (s : UHCI) : IOReturn × UHCI :=
  (.kIOReturnSuccess, SuspendController K s)

/-- The method `AppleUSBUHCI::RestoreControllerStateFromSleep`. -/
def RestoreControllerStateFromSleep (K : Consts) (s : UHCI) : IOReturn × UHCI :=
  (.kIOReturnSuccess, ResumeController K s)

/-- The poll loop of `ResetControllerState`,
`for (i = 0; (i < kUHCI_RESET_DELAY) && (ioRead16(kUHCI_CMD) & kUHCI_CMD_HCRESET); i++) IOSleep(1)`,
entered with `i` and `left = kUHCI_RESET_DELAY - i`; the result is the final `i`.  The
controller clears the reset bit by itself, so what a poll reads is an input: `device i` is
the content the controller presents in the command register at the poll with index `i`. -/
def resetPoll (K : Consts) (device : Nat → Nat) : Nat → Nat → UHCI → Nat × UHCI
  | 0, i, s => (i, s)
  | left + 1, i, s =>
    let s := { s with cmd := device i }
    if ioRead16 .kUHCI_CMD s &&& K.kUHCI_CMD_HCRESET ≠ 0 then
      resetPoll K device left (i + 1) (IOSleep 1 s)
    else (i, s)

/-- The method `AppleUSBUHCI::ResetControllerState`; `device` gives the content of the
command register seen by each poll (see `resetPoll`). -/
def ResetControllerState (K : Consts) (device : Nat → Nat) (s : UHCI) : IOReturn × UHCI :=
  -- reset the controller
  let s := Command K.kUHCI_CMD_HCRESET s
  let (i, s) := resetPoll K device K.kUHCI_RESET_DELAY 0 s
  if i ≥ K.kUHCI_RESET_DELAY then
    (.kIOReturnTimeout, s)
  else
    -- restore the frame list register
    let s := if s._framesPaddr ≠ 0 then ioWrite32 .kUHCI_FRBASEADDR s._framesPaddr s else s
    -- Use 64-byte packets, and mark controller as configured
    let s := Command (K.kUHCI_CMD_MAXP ||| K.kUHCI_CMD_CF) s
    (.kIOReturnSuccess, s)

/-- The poll loop `resetPoll` with a counter of the reads of the command register it makes:
`reads` is incremented at each evaluation of `ioRead16(kUHCI_CMD)` in the loop condition.
The result is the final `i`, the state, and the counter (see `resetPollCounted_eq`). -/
def resetPollCounted (K : Consts) (device : Nat → Nat) :
    Nat → Nat → UHCI → Nat → Nat × UHCI × Nat
  | 0, i, s, reads => (i, s, reads)
  | left + 1, i, s, reads =>
    let s := { s with cmd := device i }
    let reads := reads + 1
    if ioRead16 .kUHCI_CMD s &&& K.kUHCI_CMD_HCRESET ≠ 0 then
      resetPollCounted K device left (i + 1) (IOSleep 1 s) reads
    else (i, s, reads)

/-- The method `AppleUSBUHCI::RestartControllerFromReset`. -/
def RestartControllerFromReset (K : Consts) (s : UHCI) : IOReturn × UHCI :=
  let s := Run K true s
  -- prepare the _saveInterrupts variable for later enabling
  let s := { s with _saveInterrupts :=
    K.kUHCI_INTR_TIE ||| K.kUHCI_INTR_RIE ||| K.kUHCI_INTR_IOCE ||| K.kUHCI_INTR_SPIE }
  (.kIOReturnSuccess, s)

/-- The method `AppleUSBUHCI::EnableInterruptsFromController`. -/
def EnableInterruptsFromController (enable : Bool) (s : UHCI) : IOReturn × UHCI :=
  if enable then
    let s := ioWrite16 .kUHCI_INTR s._saveInterrupts s
    let s := { s with _saveInterrupts := 0 }
    let s := EnableUSBInterrupt true s
    (.kIOReturnSuccess, s)
  else
    let s := { s with _saveInterrupts := ioRead16 .kUHCI_INTR s }
    let s := ioWrite16 .kUHCI_INTR 0 s
    let s := EnableUSBInterrupt false s
    (.kIOReturnSuccess, s)

/-- The method `AppleUSBUHCI::DozeController`. -/
def DozeController (K : Consts) (s : UHCI) : IOReturn × UHCI :=
  let s := Run K false s
  (.kIOReturnSuccess, { s with _myBusState := .kUSBBusStateSuspended })

/-- The method `AppleUSBUHCI::WakeControllerFromDoze`. -/
def WakeControllerFromDoze (K : Consts) (s : UHCI) : IOReturn × UHCI :=
  let s := Run K true s
  (.kIOReturnSuccess, { s with _myBusState := .kUSBBusStateRunning })

/-- The call `_device->configWrite8(offset, data)` on the PCI device: the write of one byte
of configuration space is recorded. -/
def configWrite8 (offset : Nat) (data : Nat) (s : UHCI) : UHCI :=
  { s with trace := s.trace ++ [.configWrite8 (offset % 256) (data % 256)] }

/-- The test `!strncmp(a, b, n)` on strings without embedded NUL: the first `n` characters
of the two strings agree. -/
def strncmpEq (a b : String) (n : Nat) : Bool :=
  a.toList.take n == b.toList.take n

/-- The method `AppleUSBUHCI::callPlatformFunction`.  `param1` tells whether the pointer
`param1` is non-null.  The value returned is the one of `super::callPlatformFunction`,
given as `superResult`; the call of the superclass is recorded.  The shift
`1 << (_ExpressCardPort-1)` is the C shift for the port numbers `1 .. 31`, where C defines
it. -/
def callPlatformFunction {ρ : Type} (K : Consts) (functionName : String) (param1 : Bool)
    (superResult : ρ) (s : UHCI) : ρ × UHCI :=
  let s :=
    if strncmpEq functionName "SetDebugDriverPowerState" 24 then
      if param1 then
        -- system woke from sleep -- do nothing
        s
      else
        -- system is going to sleep
        if s._badExpressCardAttached ∧ s._ExpressCardPort > 0 ∧
            s._errataBits &&& K.kErrataSupportsPortResumeEnable ≠ 0 then
          -- clear the bit for the ExpressCardPort
          configWrite8 K.kUHCI_PCI_RES (clearBits 0x03 (1 <<< (s._ExpressCardPort - 1))) s
        else s
    else s
  (superResult, { s with trace := s.trace ++ [.super_callPlatformFunction functionName] })

/-- An entry of the I/O registry, as far as the search for the ExpressCard port looks at it:
its location string (`getLocation()`); `platformDevice`, which is `none` when
`metaCast("IOACPIPlatformDevice")` fails and `some b` when the entry is an
`IOACPIPlatformDevice`, `b` telling whether `validateObject("_EJD")` returns
`kIOReturnSuccess`; and its child entries in the `IOACPIPlane`, in the order of the plane. -/
inductive IORegistryEntry where
  | mk (location : String) (platformDevice : Option Bool) (children : List IORegistryEntry)

/-- The call `entry->getLocation()`. -/
def IORegistryEntry.getLocation : IORegistryEntry → String
  | .mk location _ _ => location

/-- The test `entry->getChildEntry(acpiPlane) == 0`: the entry has no child in the plane. -/
def IORegistryEntry.isLeaf : IORegistryEntry → Bool
  | .mk _ _ children => children.isEmpty

/-- The test `entry->metaCast("IOACPIPlatformDevice")`. -/
def IORegistryEntry.isACPIPlatformDevice : IORegistryEntry → Bool
  | .mk _ platformDevice _ => platformDevice.isSome

/-- The test `port->validateObject("_EJD") == kIOReturnSuccess` on an entry that is an
`IOACPIPlatformDevice`. -/
def IORegistryEntry.validatesEJD : IORegistryEntry → Bool
  | .mk _ platformDevice _ => platformDevice == some true

mutual
/-- The entries returned in turn by `getNextObject()` on an iterator made by
`IORegistryIterator::iterateOver(start, plane, kIORegistryIterateRecursively)`: the entries
below `start`, each child followed by the entries below it, before its next sibling. -/
def IORegistryEntry.iterateRecursively : IORegistryEntry → List IORegistryEntry
  | .mk _ _ children => iterateChildren children
/-- The entries of `iterateRecursively` contributed by a list of sibling entries. -/
def iterateChildren : List IORegistryEntry → List IORegistryEntry
  | [] => []
  | child :: siblings => child :: (child.iterateRecursively ++ iterateChildren siblings)
end

/-- The registry services and the library call used by the search for the ExpressCard port.
They are defined outside the driver, so they are parameters of the model: whether
`IORegistryEntry::getPlane("IOACPIPlane")` finds the plane, whether
`IORegistryIterator::iterateOver` returns an iterator, the entry found by
`IORegistryEntry::fromPath`, and the value of `strtoul(s, NULL, 10)`. -/
structure Platform where
  getPlane : Bool
  iterateOver : Bool
  fromPath : String → Option IORegistryEntry
  strtoul : String → Nat

/-- The function `CopyACPIDevice`, for a non-null `device`; `acpiPath` is the property
`acpi-path` of the device when the device has it and it is a string. -/
def CopyACPIDevice (P : Platform) (acpiPath : Option String) : Option IORegistryEntry :=
  match acpiPath with
  | none => none
  | some path =>
    match P.fromPath path with
    | some entry => if entry.isACPIPlatformDevice then some entry else none
    | none => none

/-- The loop `while (!match && (entry = iter->getNextObject()))` of `HasExpressCardUSB` over
the entries still to be returned by the iterator; the state is `match` and `*portnum`. -/
def expressCardScan (P : Platform) : List IORegistryEntry → Bool → Nat → Bool × Nat
  | [], found, portnum => (found, portnum)
  | entry :: rest, found, portnum =>
    if found then (found, portnum)
    else if entry.isLeaf ∧ entry.isACPIPlatformDevice then
      -- Express card port? Is port ejectable?
      if entry.validatesEJD then
        -- Determining the USB port number.
        expressCardScan P rest true (P.strtoul entry.getLocation % 4294967296)
      else expressCardScan P rest found portnum
    else expressCardScan P rest found portnum

/-- The function `HasExpressCardUSB`, called with a non-null `portnum` as by
`ExpressCardPort`: the result is `match` and the value left in `*portnum`. -/
def HasExpressCardUSB (P : Platform) (acpiDevice : IORegistryEntry) (portnum : Nat) :
    Bool × Nat :=
  if ¬ P.getPlane then (false, portnum)
  else if P.iterateOver then expressCardScan P acpiDevice.iterateRecursively false portnum
  else (false, portnum)

/-- The method `AppleUSBUHCI::ExpressCardPort`; `acpiPath` is the property `acpi-path` of the
provider (see `CopyACPIDevice`). -/
def ExpressCardPort (P : Platform) (acpiPath : Option String) : Nat :=
  let portNum := 0
  match CopyACPIDevice P acpiPath with
  | some acpiDevice => (HasExpressCardUSB P acpiDevice portNum).2
  | none => portNum

/-- An entry that has no child in the plane and is ejectable (validates `_EJD`). -/
def IORegistryEntry.isExpressCardPort (entry : IORegistryEntry) : Bool :=
  entry.isLeaf && entry.validatesEJD

/-- The value of a string of decimal digits, read up to its first other character. -/
def decimalValue (s : String) : Nat :=
  (s.toList.takeWhile Char.isDigit).foldl (fun n c => 10 * n + (c.toNat - 48)) 0

/-- A controller node with, below it, a leaf at location `1` that is not ejectable and a
node at location `2` with two ejectable leaves, at locations `3` and `4`: the first
ejectable leaf in the order of the iterator is the one at location `3`. -/
def expressCardTopology : IORegistryEntry :=
  .mk "1D" (some false)
    [.mk "1" (some false) [],
     .mk "2" (some false) [.mk "3" (some true) [], .mk "4" (some true) []]]

/-- A controller node with a single port below it, an ejectable leaf at location `3`. -/
def singlePortTopology : IORegistryEntry :=
  .mk "1D" (some false) [.mk "3" (some true) []]

/-- A platform on which the registry services succeed, the entry `root` is found at the
path `IOACPIPlane:/_SB/PCI0/USB1`, and `strtoul` reads decimal digits. -/
def expressCardPlatform (root : IORegistryEntry) : Platform where
  getPlane := true
  iterateOver := true
  fromPath := fun path => if path = "IOACPIPlane:/_SB/PCI0/USB1" then some root else none
  strtoul := decimalValue

/-- An effect that the statements of `ResumeController` between its two frame list loops can
perform before `Run(true)`: a write of the command register, the 20 ms delay, or the write
of the frame list base register. -/
def isCommandEffect (e : Effect) : Prop :=
  (∃ v, e = .ioWrite16 .kUHCI_CMD v) ∨ e = .IOSleep 20 ∨ ∃ v, e = .ioWrite32 .kUHCI_FRBASEADDR v

/-- The content of the frame list after the frame list stores recorded in a sequence of
effects are applied, oldest first, to the content `fl`. -/
def replayFrames (fl : Nat → Nat) : List Effect → Nat → Nat
  | [] => fl
  | .frameWrite i v :: es => replayFrames (fun j => if j = i then v else fl j) es
  | _ :: es => replayFrames fl es

/-- The frame list stores of the first loop of `ResumeController` on the frame list `fl`. -/
def setTerminate (K : Consts) (fl : Nat → Nat) : List Effect :=
  (List.range K.kUHCI_NVFRAMES).map (fun i => Effect.frameWrite i (fl i ||| frameT K))

/-- The frame list stores of the last loop of `ResumeController`, `fl` being the frame list
on entry of the method. -/
def clearTerminate (K : Consts) (fl : Nat → Nat) : List Effect :=
  (List.range K.kUHCI_NVFRAMES).map
    (fun i => Effect.frameWrite i (clearBits (fl i ||| frameT K) (frameT K)))

/-- The flags `RS`, `EGSM`, `FGR`, `MAXP` and `CF` of the command register are non-empty
groups of bits of a 16 bit word, and no two of them share a bit. -/
def Consts.cmdFlags (K : Consts) : Prop :=
  (K.kUHCI_CMD_RS ≠ 0 ∧ K.kUHCI_CMD_EGSM ≠ 0 ∧ K.kUHCI_CMD_FGR ≠ 0 ∧
    K.kUHCI_CMD_MAXP ≠ 0 ∧ K.kUHCI_CMD_CF ≠ 0) ∧
  (K.kUHCI_CMD_RS < 65536 ∧ K.kUHCI_CMD_EGSM < 65536 ∧ K.kUHCI_CMD_FGR < 65536 ∧
    K.kUHCI_CMD_MAXP < 65536 ∧ K.kUHCI_CMD_CF < 65536) ∧
  (K.kUHCI_CMD_RS &&& K.kUHCI_CMD_EGSM = 0 ∧ K.kUHCI_CMD_RS &&& K.kUHCI_CMD_FGR = 0 ∧
    K.kUHCI_CMD_RS &&& K.kUHCI_CMD_MAXP = 0 ∧ K.kUHCI_CMD_RS &&& K.kUHCI_CMD_CF = 0 ∧
    K.kUHCI_CMD_EGSM &&& K.kUHCI_CMD_FGR = 0 ∧ K.kUHCI_CMD_EGSM &&& K.kUHCI_CMD_MAXP = 0 ∧
    K.kUHCI_CMD_EGSM &&& K.kUHCI_CMD_CF = 0 ∧ K.kUHCI_CMD_FGR &&& K.kUHCI_CMD_MAXP = 0 ∧
    K.kUHCI_CMD_FGR &&& K.kUHCI_CMD_CF = 0 ∧ K.kUHCI_CMD_MAXP &&& K.kUHCI_CMD_CF = 0)

instance (K : Consts) : Decidable K.cmdFlags := by
  unfold Consts.cmdFlags
  infer_instance

/-- The test of the port loop of `SuspendController` for port `i`: the errata bits include
`kErrataUHCISupportsOvercurrent` and `kUHCI_PORTSC_OCI` is set in the port status masked
with `kUHCI_PORTSC_MASK`. -/
def overcurrentLatched (K : Consts) (s : UHCI) (i : Nat) : Prop :=
  s._errataBits &&& K.kErrataUHCISupportsOvercurrent ≠ 0 ∧
    (ReadPortStatus i s &&& K.kUHCI_PORTSC_MASK) &&& K.kUHCI_PORTSC_OCI ≠ 0

instance (K : Consts) (s : UHCI) (i : Nat) : Decidable (overcurrentLatched K s i) := by
  unfold overcurrentLatched
  infer_instance

/-- The port status writes of `SuspendController` for port `i`. -/
def overcurrentClear (K : Consts) (s : UHCI) (i : Nat) : List Effect :=
  if overcurrentLatched K s i then [.WritePortStatus i K.kUHCI_PORTSC_OCI] else []

/-- A set of constants with the bit assignments of the UHCI register map, used to run the
model on concrete inputs. -/
def uhciConsts : Consts where
  kUHCI_CMD_RS := 0x0001
  kUHCI_CMD_HCRESET := 0x0002
  kUHCI_CMD_EGSM := 0x0008
  kUHCI_CMD_FGR := 0x0010
  kUHCI_CMD_CF := 0x0040
  kUHCI_CMD_MAXP := 0x0080
  kUHCI_INTR_TIE := 0x0001
  kUHCI_INTR_RIE := 0x0002
  kUHCI_INTR_IOCE := 0x0004
  kUHCI_INTR_SPIE := 0x0008
  kUHCI_PORTSC_MASK := 0x13F5
  kUHCI_PORTSC_PED := 0x0004
  kUHCI_PORTSC_SUSPEND := 0x1000
  kUHCI_PORTSC_OCI := 0x0800
  kUHCI_FRAME_T := 0x0001
  kUHCI_NVFRAMES := 1024
  kUHCI_RESET_DELAY := 100
  kErrataUHCISupportsOvercurrent := 0x0004
  kErrataSupportsPortResumeEnable := 0x8000
  kUHCI_PCI_RES := 0xC4
  HostToUSBLong := fun x => x

/-- A running controller: command register `RS | CF | MAXP`, all four interrupt sources
enabled, frame list at `0x1000` with entry `i` pointing at `16 * i`. -/
def runningController : UHCI where
  cmd := 0x00C1
  intr := 0x000F
  frbase := 0x1000
  portsc := fun _ => 0x0005
  _frameList := fun i => 16 * i
  _framesPaddr := 0x1000
  _saveInterrupts := 0
  _myBusState := .kUSBBusStateRunning
  _errataBits := 0
  _ExpressCardPort := 0
  _badExpressCardAttached := false
  usbInterruptEnabled := true
  trace := []

/-- The running controller before its frame list is allocated: `_framesPaddr` is null, the
frame list base register holds what the firmware left there. -/
def unallocatedController : UHCI := { runningController with _framesPaddr := 0 }

/-- A globally suspended controller: only `EGSM` is set in the command register. -/
def suspendedController : UHCI :=
  { runningController with cmd := 0x0008, _myBusState := .kUSBBusStateSuspended }

/-- The constants `uhciConsts` with a port status mask (`0x1FF5`) that keeps the overcurrent
bits, for the branch of the port loop of `SuspendController` that writes. -/
def overcurrentConsts : Consts := { uhciConsts with kUHCI_PORTSC_MASK := 0x1FF5 }

/-- A running controller flagged `kErrataUHCISupportsOvercurrent` whose port 0 reports a
latched overcurrent (`0x0800`) next to an enabled, connected device. -/
def overcurrentController : UHCI :=
  { runningController with
    _errataBits := 0x0004, portsc := fun i => if i = 0 then 0x0805 else 0x0005 }

/-- A controller on an ExpressCard slot at port 2 with a card attached, flagged
`kErrataSupportsPortResumeEnable`. -/
def expressCardController : UHCI :=
  { runningController with
    _ExpressCardPort := 2, _badExpressCardAttached := true, _errataBits := 0x8000 }

/-! ## Words and loops -/

theorem testBit_clearBits (x m j : Nat) :
    (clearBits x m).testBit j = (x.testBit j && !m.testBit j) := by
  unfold clearBits
  rw [Nat.testBit_xor, Nat.testBit_and]
  cases x.testBit j <;> cases m.testBit j <;> rfl

theorem clearBits_and_self (x m : Nat) : clearBits x m &&& m = 0 := by
  apply Nat.eq_of_testBit_eq
  intro j
  rw [Nat.testBit_and, testBit_clearBits, Nat.zero_testBit]
  cases x.testBit j <;> cases m.testBit j <;> rfl

theorem lor_land_self (x m : Nat) : (x ||| m) &&& m = m := by
  apply Nat.eq_of_testBit_eq
  intro j
  rw [Nat.testBit_and, Nat.testBit_or]
  cases x.testBit j <;> cases m.testBit j <;> rfl

theorem clearBits_lt (x m n : Nat) (h : x < 2 ^ n) : clearBits x m < 2 ^ n := by
  apply Nat.lt_pow_two_of_testBit
  intro j hj
  rw [testBit_clearBits, Nat.testBit_lt_two_pow (lt_of_lt_of_le h (Nat.pow_le_pow_right (by decide) hj))]
  rfl

theorem forLoop_frameListOr (m n : Nat) (s : UHCI) :
    forLoop (frameListOr m) n s =
      { s with
        _frameList := fun j => if j < n then s._frameList j ||| m else s._frameList j,
        trace := s.trace ++ (List.range n).map (fun i => Effect.frameWrite i (s._frameList i ||| m)) } := by
  induction n with
  | zero => cases s; simp [forLoop]
  | succ n ih =>
    rw [forLoop, ih]
    simp only [frameListOr, List.range_succ, List.map_append, List.map_cons, List.map_nil,
      List.append_assoc, lt_irrefl, if_false]
    congr 1
    funext j
    by_cases hj : j = n
    · subst hj; simp
    · simp only [hj, if_false]
      by_cases h1 : j < n
      · simp [h1, Nat.lt_succ_of_lt h1]
      · have : ¬ j < n + 1 := by omega
        simp [h1, this]

theorem forLoop_frameListAndNot (m n : Nat) (s : UHCI) :
    forLoop (frameListAndNot m) n s =
      { s with
        _frameList := fun j => if j < n then clearBits (s._frameList j) m else s._frameList j,
        trace := s.trace ++
          (List.range n).map (fun i => Effect.frameWrite i (clearBits (s._frameList i) m)) } := by
  induction n with
  | zero => cases s; simp [forLoop]
  | succ n ih =>
    rw [forLoop, ih]
    simp only [frameListAndNot, List.range_succ, List.map_append, List.map_cons, List.map_nil,
      List.append_assoc, lt_irrefl, if_false]
    congr 1
    funext j
    by_cases hj : j = n
    · subst hj; simp
    · simp only [hj, if_false]
      by_cases h1 : j < n
      · simp [h1, Nat.lt_succ_of_lt h1]
      · have : ¬ j < n + 1 := by omega
        simp [h1, this]


theorem ResumeController_eq (K : Consts) (s : UHCI) :
    ResumeController K s =
      if ioRead16 .kUHCI_CMD s &&& K.kUHCI_CMD_RS ≠ 0 then s
      else forLoop (frameListAndNot (frameT K)) K.kUHCI_NVFRAMES
        (IOSleep 10 (Run K true (resumeCommand K (ioRead16 .kUHCI_CMD s)
          (forLoop (frameListOr (frameT K)) K.kUHCI_NVFRAMES s)))) := rfl

theorem resumeCommand_fields (K : Consts) (cmd : Nat) (s : UHCI) :
    (resumeCommand K cmd s)._frameList = s._frameList ∧
    (resumeCommand K cmd s)._framesPaddr = s._framesPaddr ∧
    (resumeCommand K cmd s)._myBusState = s._myBusState ∧
    (resumeCommand K cmd s).intr = s.intr ∧
    (resumeCommand K cmd s)._saveInterrupts = s._saveInterrupts ∧
    (resumeCommand K cmd s).frbase =
      (if s._framesPaddr ≠ 0 then s._framesPaddr % 4294967296 else s.frbase) := by
  unfold resumeCommand
  simp only [ioWrite16, ioRead16, IOSleep, ioWrite32]
  split_ifs <;> simp_all

theorem resumeCommand_trace (K : Consts) (cmd : Nat) (s : UHCI) :
    ∃ mid, (resumeCommand K cmd s).trace = s.trace ++ mid ∧ ∀ e ∈ mid, isCommandEffect e := by
  unfold resumeCommand
  simp only [ioWrite16, ioRead16, IOSleep, ioWrite32]
  split_ifs <;> simp_all [isCommandEffect]


theorem ResumeController_myBusState (K : Consts) (s : UHCI) :
    (ResumeController K s)._myBusState = s._myBusState := by
  rw [ResumeController_eq]
  split_ifs
  · rfl
  · rw [forLoop_frameListAndNot]
    simp only [IOSleep, Run]
    rw [(resumeCommand_fields K _ _).2.2.1, forLoop_frameListOr]

theorem ResumeController_frbase (K : Consts) (s : UHCI)
    (h : ioRead16 .kUHCI_CMD s &&& K.kUHCI_CMD_RS = 0) :
    (ResumeController K s).frbase =
      if s._framesPaddr ≠ 0 then s._framesPaddr % 4294967296 else s.frbase := by
  rw [ResumeController_eq, if_neg (by simpa using h), forLoop_frameListAndNot]
  simp only [IOSleep, Run]
  rw [(resumeCommand_fields K _ _).2.2.2.2.2, forLoop_frameListOr]

theorem SuspendController_fields (K : Consts) (s : UHCI) :
    (SuspendController K s)._myBusState = .kUSBBusStateSuspended ∧
    (SuspendController K s)._framesPaddr = s._framesPaddr ∧
    (SuspendController K s).frbase = s.frbase ∧
    (SuspendController K s)._frameList = s._frameList ∧
    (SuspendController K s).cmd =
      (clearBits (clearBits (s.cmd % 65536) K.kUHCI_CMD_RS % 65536) K.kUHCI_CMD_FGR
        ||| K.kUHCI_CMD_EGSM) % 65536 := by
  simp only [SuspendController, forLoop, suspendPort, IOSleep, ioWrite16, ioRead16, Run,
    ReadPortStatus, WritePortStatus, Bool.false_eq_true, if_false]
  split_ifs <;> simp


theorem testBit_mod_65536 (x j : Nat) :
    (x % 65536).testBit j = (decide (j < 16) && x.testBit j) :=
  Nat.testBit_mod_two_pow x 16 j

theorem and_testBit_of_disjoint {a b : Nat} (h : a &&& b = 0) (j : Nat) :
    (a.testBit j && b.testBit j) = false := by
  rw [← Nat.testBit_and, h, Nat.zero_testBit]

theorem SuspendController_not_running (K : Consts) (s : UHCI)
    (hK : K.kUHCI_CMD_EGSM &&& K.kUHCI_CMD_RS = 0) :
    ioRead16 .kUHCI_CMD (SuspendController K s) &&& K.kUHCI_CMD_RS = 0 := by
  simp only [ioRead16, (SuspendController_fields K s).2.2.2.2]
  apply Nat.eq_of_testBit_eq
  intro j
  have hj := and_testBit_of_disjoint hK j
  simp only [Nat.testBit_and, Nat.testBit_or, testBit_clearBits, testBit_mod_65536,
    Nat.zero_testBit]
  cases hE : K.kUHCI_CMD_EGSM.testBit j <;> cases hR : K.kUHCI_CMD_RS.testBit j <;> simp_all

/-! ## The effects of `ResumeController` -/

theorem ResumeController_trace (K : Consts) (s : UHCI)
    (h : ioRead16 .kUHCI_CMD s &&& K.kUHCI_CMD_RS = 0) :
    ∃ mid, (ResumeController K s).trace =
        s.trace ++ (setTerminate K s._frameList ++ mid ++ [.Run true, .IOSleep 10] ++
          clearTerminate K s._frameList) ∧
      ∀ e ∈ mid, isCommandEffect e := by
  obtain ⟨mid, hmid, hall⟩ := resumeCommand_trace K (ioRead16 .kUHCI_CMD s)
    (forLoop (frameListOr (frameT K)) K.kUHCI_NVFRAMES s)
  refine ⟨mid, ?_, hall⟩
  rw [ResumeController_eq, if_neg (by simpa using h), forLoop_frameListAndNot]
  simp only [IOSleep, Run]
  rw [hmid, (resumeCommand_fields K _ _).1, forLoop_frameListOr]
  simp only [setTerminate, clearTerminate, List.append_assoc, List.cons_append, List.nil_append,
    List.append_cancel_left_eq, List.cons.injEq, true_and]
  apply List.map_congr_left
  intro a ha
  rw [if_pos (List.mem_range.mp ha)]

theorem ResumeController_frameList (K : Consts) (s : UHCI)
    (h : ioRead16 .kUHCI_CMD s &&& K.kUHCI_CMD_RS = 0) :
    (ResumeController K s)._frameList =
      fun j => if j < K.kUHCI_NVFRAMES then clearBits (s._frameList j ||| frameT K) (frameT K)
        else s._frameList j := by
  rw [ResumeController_eq, if_neg (by simpa using h), forLoop_frameListAndNot]
  simp only [IOSleep, Run]
  rw [(resumeCommand_fields K _ _).1, forLoop_frameListOr]
  funext j
  by_cases hj : j < K.kUHCI_NVFRAMES <;> simp [hj]

theorem replayFrames_append (a b : List Effect) (fl : Nat → Nat) :
    replayFrames fl (a ++ b) = replayFrames (replayFrames fl a) b := by
  induction a generalizing fl with
  | nil => rfl
  | cons e a ih => cases e <;> simp [replayFrames, ih]

theorem replayFrames_of_no_store (l : List Effect) (fl : Nat → Nat)
    (h : ∀ e ∈ l, ∀ i v, e ≠ .frameWrite i v) : replayFrames fl l = fl := by
  induction l with
  | nil => rfl
  | cons e l ih =>
    have hl : ∀ e ∈ l, ∀ i v, e ≠ .frameWrite i v :=
      fun e he => h e (List.mem_cons_of_mem _ he)
    cases e with
    | frameWrite i v => exact absurd rfl (h _ (List.mem_cons_self _ _) i v)
    | _ => simpa [replayFrames] using ih hl

theorem replayFrames_stores (g : Nat → Nat) (m : Nat) (fl : Nat → Nat) :
    replayFrames fl ((List.range m).map (fun i => Effect.frameWrite i (g i))) =
      fun j => if j < m then g j else fl j := by
  induction m with
  | zero => simp [replayFrames]
  | succ m ih =>
    rw [List.range_succ, List.map_append, replayFrames_append, ih]
    simp only [List.map_cons, List.map_nil, replayFrames]
    funext j
    by_cases hj : j = m
    · subst hj; simp
    · by_cases h1 : j < m
      · simp [hj, h1, Nat.lt_succ_of_lt h1]
      · have : ¬ j < m + 1 := by omega
        simp [hj, h1, this]

theorem isCommandEffect_ne_frameWrite (e : Effect) (h : isCommandEffect e) (i v : Nat) :
    e ≠ .frameWrite i v := by
  rcases h with ⟨w, rfl⟩ | rfl | ⟨w, rfl⟩ <;> simp

theorem replayFrames_resume_point (K : Consts) (fl : Nat → Nat) (mid p q : List Effect)
    (hmid : ∀ e ∈ mid, isCommandEffect e)
    (hpq : setTerminate K fl ++ mid ++ [.Run true, .IOSleep 10] ++ clearTerminate K fl = p ++ q)
    (hlen : p.length ≤ K.kUHCI_NVFRAMES + mid.length + 2)
    (i : Nat) (hi : i < K.kUHCI_NVFRAMES) (hip : i < p.length) :
    replayFrames fl p i &&& frameT K = frameT K := by
  have hA : (setTerminate K fl).length = K.kUHCI_NVFRAMES := by simp [setTerminate]
  have hp : p = List.take p.length
      (setTerminate K fl ++ (mid ++ [.Run true, .IOSleep 10]) ++ clearTerminate K fl) := by
    have h1 := (List.take_left p q).symm
    rw [← hpq] at h1
    simpa [List.append_assoc] using h1
  rw [List.take_append_of_le_length (by simp [hA]; omega), List.take_append_eq_append_take]
    at hp
  have hno : ∀ e ∈ List.take (p.length - (setTerminate K fl).length)
      (mid ++ [.Run true, .IOSleep 10]), ∀ i v, e ≠ .frameWrite i v := by
    intro e he i v
    have he2 := List.mem_of_mem_take he
    rcases List.mem_append.mp he2 with hm | hm
    · exact isCommandEffect_ne_frameWrite e (hmid e hm) i v
    · simp only [List.mem_cons, List.mem_singleton, List.not_mem_nil, or_false] at hm
      rcases hm with rfl | rfl <;> simp
  have hset : List.take p.length (setTerminate K fl) =
      (List.range (min p.length K.kUHCI_NVFRAMES)).map
        (fun i => Effect.frameWrite i (fl i ||| frameT K)) := by
    rw [setTerminate, ← List.map_take, List.take_range]
  rw [hp, replayFrames_append, replayFrames_of_no_store _ _ hno, hset, replayFrames_stores]
  have : i < min p.length K.kUHCI_NVFRAMES := lt_min hip hi
  simp only [this, if_true]
  exact lor_land_self _ _

/-! ## Leaving and entering global suspend -/

/-- C1. When the run bit is set in the command register read by `ResumeController`, the
method changes nothing: the state after it, with the command register, the frame list base
register, the frame list, `_saveInterrupts`, `_myBusState` and the record of effects (so no
delay either), is the state before it, and `RestoreControllerStateFromSleep` returns
`kIOReturnSuccess`. -/
theorem resume_when_running_is_noop (K : Consts) (s : UHCI)
    (h : ioRead16 .kUHCI_CMD s &&& K.kUHCI_CMD_RS ≠ 0) :
    ResumeController K s = s ∧
    (ResumeController K s).trace = s.trace ∧
    RestoreControllerStateFromSleep K s = (.kIOReturnSuccess, s) := by
  have h1 : ResumeController K s = s := by
    rw [ResumeController_eq, if_pos h]
  exact ⟨h1, by rw [h1], by rw [RestoreControllerStateFromSleep, h1]⟩

theorem resume_when_running_is_noop_witness :
    ioRead16 .kUHCI_CMD runningController &&& uhciConsts.kUHCI_CMD_RS ≠ 0 ∧
    ResumeController uhciConsts runningController = runningController ∧
    (ResumeController uhciConsts runningController).trace = runningController.trace ∧
    RestoreControllerStateFromSleep uhciConsts runningController =
      (.kIOReturnSuccess, runningController) :=
  ⟨by decide, resume_when_running_is_noop uhciConsts runningController (by decide)⟩

/-- C2, evaluated on the code. `ResumeController` never assigns `_myBusState`: after
`SuspendController` followed by `ResumeController` the field still holds
`kUSBBusStateSuspended`, for every set of constants and every state, and so on the running
controller `runningController`, where it differs from `kUSBBusStateRunning`. -/
theorem suspend_resume_leaves_bus_state_suspended :
    (∀ (K : Consts) (s : UHCI),
      (ResumeController K (SuspendController K s))._myBusState = .kUSBBusStateSuspended) ∧
    runningController._myBusState = .kUSBBusStateRunning ∧
    (ResumeController uhciConsts (SuspendController uhciConsts runningController))._myBusState ≠
      .kUSBBusStateRunning := by
  have h : ∀ (K : Consts) (s : UHCI),
      (ResumeController K (SuspendController K s))._myBusState = .kUSBBusStateSuspended := by
    intro K s
    rw [ResumeController_myBusState, (SuspendController_fields K s).1]
  refine ⟨h, rfl, ?_⟩
  rw [h]
  decide

theorem frbase_after_suspend_resume (K : Consts) (s : UHCI)
    (hK : K.kUHCI_CMD_EGSM &&& K.kUHCI_CMD_RS = 0) :
    (ResumeController K (SuspendController K s)).frbase =
      if s._framesPaddr ≠ 0 then s._framesPaddr % 4294967296 else s.frbase := by
  rw [ResumeController_frbase K _ (SuspendController_not_running K s hK),
    (SuspendController_fields K s).2.1, (SuspendController_fields K s).2.2.1]

/-- C3 as stated fails: with `_framesPaddr` null and `0x1000` in the frame list base
register, the register still holds `0x1000` after `SuspendController` followed by
`ResumeController`, not `_framesPaddr`. -/
theorem frbase_not_restored_from_null :
    unallocatedController._framesPaddr = 0 ∧
    (ResumeController uhciConsts (SuspendController uhciConsts unallocatedController)).frbase
      = 0x1000 ∧
    (ResumeController uhciConsts (SuspendController uhciConsts unallocatedController)).frbase
      ≠ unallocatedController._framesPaddr := by
  rw [frbase_after_suspend_resume uhciConsts unallocatedController (by decide)]
  decide

/-- C3, amended. When `EGSM` and `RS` share no bit: after `SuspendController` followed by
`ResumeController` the frame list base register equals `_framesPaddr` whenever
`_framesPaddr` is a non-null 32 bit address, whatever the register held before; when
`_framesPaddr` is null the register is not written and keeps its content. -/
theorem frbase_restored_from_framesPaddr (K : Consts) (s : UHCI)
    (hK : K.kUHCI_CMD_EGSM &&& K.kUHCI_CMD_RS = 0) :
    (s._framesPaddr ≠ 0 → s._framesPaddr < 4294967296 →
      (ResumeController K (SuspendController K s)).frbase = s._framesPaddr) ∧
    (s._framesPaddr = 0 →
      (ResumeController K (SuspendController K s)).frbase = s.frbase) := by
  rw [frbase_after_suspend_resume K s hK]
  constructor
  · intro hne h32
    rw [if_pos hne, Nat.mod_eq_of_lt h32]
  · intro h0
    rw [if_neg (by simp [h0])]

theorem frbase_restored_from_framesPaddr_witness :
    uhciConsts.kUHCI_CMD_EGSM &&& uhciConsts.kUHCI_CMD_RS = 0 ∧
    runningController._framesPaddr ≠ 0 ∧ runningController._framesPaddr < 4294967296 ∧
    (ResumeController uhciConsts (SuspendController uhciConsts
      { runningController with frbase := 0 })).frbase = 0x1000 :=
  ⟨by decide, by decide, by decide,
    (frbase_restored_from_framesPaddr uhciConsts { runningController with frbase := 0 }
      (by decide)).1 (by decide) (by decide)⟩

/-- C4. From a state whose run bit reads clear, the effects of `ResumeController` are, in
order: the stores that set the terminate bit of the entries `0 .. kUHCI_NVFRAMES - 1`; a
middle part made only of command register writes, the 20 ms delay and the write of the
frame list base register; `Run(true)`; the 10 ms delay; the stores that clear the terminate
bit of the same entries.  So every clearing store comes after `Run(true)` and the 10 ms
delay and every setting store before the first command register write.  At every point of
this sequence up to the end of the 10 ms delay, each entry already reached by the first loop
carries the terminate bit, hence all `kUHCI_NVFRAMES` entries from the end of that loop
on. -/
theorem resume_terminate_order (K : Consts) (s : UHCI)
    (h : ioRead16 .kUHCI_CMD s &&& K.kUHCI_CMD_RS = 0) :
    ∃ mid : List Effect,
      (ResumeController K s).trace =
        s.trace ++ (setTerminate K s._frameList ++ mid ++ [.Run true, .IOSleep 10] ++
          clearTerminate K s._frameList) ∧
      (∀ e ∈ mid, isCommandEffect e) ∧
      (∀ e ∈ setTerminate K s._frameList,
        ∃ i v, e = .frameWrite i v ∧ v &&& frameT K = frameT K) ∧
      (∀ e ∈ clearTerminate K s._frameList, ∃ i v, e = .frameWrite i v ∧ v &&& frameT K = 0) ∧
      (∀ p q : List Effect,
        setTerminate K s._frameList ++ mid ++ [.Run true, .IOSleep 10] ++
          clearTerminate K s._frameList = p ++ q →
        p.length ≤ K.kUHCI_NVFRAMES + mid.length + 2 →
        ∀ i, i < K.kUHCI_NVFRAMES → i < p.length →
          replayFrames s._frameList p i &&& frameT K = frameT K) := by
  obtain ⟨mid, htrace, hmid⟩ := ResumeController_trace K s h
  refine ⟨mid, htrace, hmid, ?_, ?_, ?_⟩
  · intro e he
    simp only [setTerminate, List.mem_map, List.mem_range] at he
    obtain ⟨i, _, rfl⟩ := he
    exact ⟨i, _, rfl, lor_land_self _ _⟩
  · intro e he
    simp only [clearTerminate, List.mem_map, List.mem_range] at he
    obtain ⟨i, _, rfl⟩ := he
    exact ⟨i, _, rfl, clearBits_and_self _ _⟩
  · intro p q hpq hlen i hi hip
    exact replayFrames_resume_point K s._frameList mid p q hmid hpq hlen i hi hip

theorem resume_terminate_order_witness :
    ioRead16 .kUHCI_CMD suspendedController &&& uhciConsts.kUHCI_CMD_RS = 0 ∧
    ∃ mid : List Effect,
      (ResumeController uhciConsts suspendedController).trace =
        suspendedController.trace ++ (setTerminate uhciConsts suspendedController._frameList ++
          mid ++ [.Run true, .IOSleep 10] ++
          clearTerminate uhciConsts suspendedController._frameList) ∧
      (∀ e ∈ mid, isCommandEffect e) ∧
      (∀ e ∈ setTerminate uhciConsts suspendedController._frameList,
        ∃ i v, e = .frameWrite i v ∧ v &&& frameT uhciConsts = frameT uhciConsts) ∧
      (∀ e ∈ clearTerminate uhciConsts suspendedController._frameList,
        ∃ i v, e = .frameWrite i v ∧ v &&& frameT uhciConsts = 0) ∧
      (∀ p q : List Effect,
        setTerminate uhciConsts suspendedController._frameList ++ mid ++
          [.Run true, .IOSleep 10] ++
          clearTerminate uhciConsts suspendedController._frameList = p ++ q →
        p.length ≤ uhciConsts.kUHCI_NVFRAMES + mid.length + 2 →
        ∀ i, i < uhciConsts.kUHCI_NVFRAMES → i < p.length →
          replayFrames suspendedController._frameList p i &&& frameT uhciConsts =
            frameT uhciConsts) :=
  ⟨by decide, resume_terminate_order uhciConsts suspendedController (by decide)⟩

/-! ## Reset -/

theorem resetPoll_spec (K : Consts) (device : Nat → Nat) (left i : Nat) (s : UHCI) :
    i ≤ (resetPoll K device left i s).1 ∧
    (resetPoll K device left i s).1 ≤ i + left ∧
    (∀ k, i ≤ k → k < (resetPoll K device left i s).1 →
      device k % 65536 &&& K.kUHCI_CMD_HCRESET ≠ 0) ∧
    ((resetPoll K device left i s).1 < i + left →
      device (resetPoll K device left i s).1 % 65536 &&& K.kUHCI_CMD_HCRESET = 0) ∧
    (resetPoll K device left i s).2.trace =
      s.trace ++ List.replicate ((resetPoll K device left i s).1 - i) (.IOSleep 1) ∧
    (resetPoll K device left i s).2.frbase = s.frbase ∧
    (resetPoll K device left i s).2._framesPaddr = s._framesPaddr ∧
    (resetPoll K device left i s).2._frameList = s._frameList ∧
    (resetPoll K device left i s).2._myBusState = s._myBusState ∧
    (resetPoll K device left i s).2._saveInterrupts = s._saveInterrupts ∧
    (resetPoll K device left i s).2.intr = s.intr := by
  induction left generalizing i s with
  | zero =>
    refine ⟨le_refl _, le_refl _, ?_, ?_, by simp [resetPoll], rfl, rfl, rfl, rfl, rfl, rfl⟩
    · intro k h1 h2; exact absurd h2 (by simpa [resetPoll] using h1)
    · intro h1; exact absurd h1 (by simp [resetPoll])
  | succ left ih =>
    by_cases hc : device i % 65536 &&& K.kUHCI_CMD_HCRESET ≠ 0
    · have hstep : resetPoll K device (left + 1) i s =
          resetPoll K device left (i + 1)
            { s with cmd := device i, trace := s.trace ++ [.IOSleep 1] } := by
        simp only [resetPoll, ioRead16, IOSleep]
        rw [if_pos hc]
      rw [hstep]
      obtain ⟨h1, h2, h3, h4, h5, h6⟩ :=
        ih (i + 1) { s with cmd := device i, trace := s.trace ++ [.IOSleep 1] }
      refine ⟨by omega, by omega, ?_, ?_, ?_, h6⟩
      · intro k hk1 hk2
        by_cases hki : k = i
        · subst hki; exact hc
        · exact h3 k (by omega) hk2
      · intro hlt
        exact h4 (by omega)
      · rw [h5]
        simp only [List.append_assoc, List.singleton_append]
        rw [← List.replicate_succ]
        congr 2
        omega
    · have hstep : resetPoll K device (left + 1) i s = (i, { s with cmd := device i }) := by
        simp only [resetPoll, ioRead16]
        rw [if_neg hc]
      rw [hstep]
      refine ⟨le_refl _, by omega, ?_, ?_, by simp, rfl, rfl, rfl, rfl, rfl, rfl⟩
      · intro k hk1 hk2
        exact absurd hk2 (by simpa using hk1)
      · intro _
        simpa using hc

theorem ResetControllerState_eq (K : Consts) (device : Nat → Nat) (s : UHCI) :
    ResetControllerState K device s =
      if (resetPoll K device K.kUHCI_RESET_DELAY 0 (Command K.kUHCI_CMD_HCRESET s)).1 ≥
          K.kUHCI_RESET_DELAY then
        (.kIOReturnTimeout,
          (resetPoll K device K.kUHCI_RESET_DELAY 0 (Command K.kUHCI_CMD_HCRESET s)).2)
      else
        (.kIOReturnSuccess,
          Command (K.kUHCI_CMD_MAXP ||| K.kUHCI_CMD_CF)
            (if s._framesPaddr ≠ 0 then
              ioWrite32 .kUHCI_FRBASEADDR s._framesPaddr
                (resetPoll K device K.kUHCI_RESET_DELAY 0 (Command K.kUHCI_CMD_HCRESET s)).2
            else (resetPoll K device K.kUHCI_RESET_DELAY 0 (Command K.kUHCI_CMD_HCRESET s)).2)) := by
  have hp := (resetPoll_spec K device K.kUHCI_RESET_DELAY 0 (Command K.kUHCI_CMD_HCRESET s)).2.2.2.2.2.2.1
  unfold ResetControllerState
  simp only []
  rw [hp]
  rfl

theorem ResetControllerState_timeout (K : Consts) (device : Nat → Nat) (s : UHCI)
    (h : ∀ k, k < K.kUHCI_RESET_DELAY → device k % 65536 &&& K.kUHCI_CMD_HCRESET ≠ 0) :
    (ResetControllerState K device s).1 = .kIOReturnTimeout ∧
    (ResetControllerState K device s).2.trace =
      s.trace ++ .Command K.kUHCI_CMD_HCRESET ::
        List.replicate K.kUHCI_RESET_DELAY (.IOSleep 1) ∧
    (ResetControllerState K device s).2.frbase = s.frbase := by
  obtain ⟨_, h2, _, h4, h5, h6, _⟩ :=
    resetPoll_spec K device K.kUHCI_RESET_DELAY 0 (Command K.kUHCI_CMD_HCRESET s)
  have hi : (resetPoll K device K.kUHCI_RESET_DELAY 0 (Command K.kUHCI_CMD_HCRESET s)).1 =
      K.kUHCI_RESET_DELAY := by
    by_contra hne
    have hlt : (resetPoll K device K.kUHCI_RESET_DELAY 0 (Command K.kUHCI_CMD_HCRESET s)).1 <
        K.kUHCI_RESET_DELAY := by omega
    exact h _ hlt (h4 (by omega))
  rw [ResetControllerState_eq, if_pos (by omega)]
  refine ⟨rfl, ?_, ?_⟩
  · show (resetPoll K device K.kUHCI_RESET_DELAY 0 (Command K.kUHCI_CMD_HCRESET s)).2.trace = _
    rw [h5, hi]
    simp only [Command, Nat.sub_zero, List.append_assoc, List.singleton_append]
  · show (resetPoll K device K.kUHCI_RESET_DELAY 0 (Command K.kUHCI_CMD_HCRESET s)).2.frbase = _
    rw [h6]
    rfl

theorem ResetControllerState_success (K : Consts) (device : Nat → Nat) (s : UHCI)
    (h : ∃ k, k < K.kUHCI_RESET_DELAY ∧ device k % 65536 &&& K.kUHCI_CMD_HCRESET = 0) :
    (ResetControllerState K device s).1 = .kIOReturnSuccess ∧
    (ResetControllerState K device s).2.frbase =
      (if s._framesPaddr ≠ 0 then s._framesPaddr % 4294967296 else s.frbase) ∧
    (ResetControllerState K device s).2.cmd = (K.kUHCI_CMD_MAXP ||| K.kUHCI_CMD_CF) % 65536 ∧
    (ResetControllerState K device s).2.trace.getLast? =
      some (.Command (K.kUHCI_CMD_MAXP ||| K.kUHCI_CMD_CF)) := by
  obtain ⟨k, hk, hclear⟩ := h
  obtain ⟨_, _, h3, _, _, h6, _⟩ :=
    resetPoll_spec K device K.kUHCI_RESET_DELAY 0 (Command K.kUHCI_CMD_HCRESET s)
  have hi : (resetPoll K device K.kUHCI_RESET_DELAY 0 (Command K.kUHCI_CMD_HCRESET s)).1 ≤ k := by
    by_contra hne
    exact h3 k (Nat.zero_le _) (by omega) hclear
  rw [ResetControllerState_eq, if_neg (by omega)]
  refine ⟨rfl, ?_, ?_, ?_⟩
  · by_cases hp : s._framesPaddr ≠ 0
    · simp only [hp, if_true, Command, ioWrite32, ne_eq, not_false_eq_true]
    · rw [if_neg hp, if_neg hp]
      show (resetPoll K device K.kUHCI_RESET_DELAY 0 (Command K.kUHCI_CMD_HCRESET s)).2.frbase = _
      rw [h6]
      rfl
  · simp only [Command]
  · simp only [Command, List.getLast?_concat]

/-- C5. When each of the `kUHCI_RESET_DELAY` polls reads the command register with
`kUHCI_CMD_HCRESET` set, `ResetControllerState` returns `kIOReturnTimeout`; its effects are
the reset command followed by `kUHCI_RESET_DELAY` delays of 1 ms and nothing else, so the
frame list base register is not written (and keeps its content) and the only command
issued is the reset command, not `MAXP | CF`. -/
theorem reset_timeout (K : Consts) (device : Nat → Nat) (s : UHCI)
    (h : ∀ k, k < K.kUHCI_RESET_DELAY → device k % 65536 &&& K.kUHCI_CMD_HCRESET ≠ 0) :
    (ResetControllerState K device s).1 = .kIOReturnTimeout ∧
    (ResetControllerState K device s).2.trace =
      s.trace ++ .Command K.kUHCI_CMD_HCRESET ::
        List.replicate K.kUHCI_RESET_DELAY (.IOSleep 1) ∧
    (ResetControllerState K device s).2.frbase = s.frbase ∧
    (∀ v, Effect.ioWrite32 .kUHCI_FRBASEADDR v ∉
      Effect.Command K.kUHCI_CMD_HCRESET ::
        List.replicate K.kUHCI_RESET_DELAY (Effect.IOSleep 1)) ∧
    (∀ c, Effect.Command c ∈
      Effect.Command K.kUHCI_CMD_HCRESET ::
        List.replicate K.kUHCI_RESET_DELAY (Effect.IOSleep 1) → c = K.kUHCI_CMD_HCRESET) := by
  obtain ⟨h1, h2, h3⟩ := ResetControllerState_timeout K device s h
  refine ⟨h1, h2, h3, ?_, ?_⟩
  · intro v hv
    simp [List.mem_replicate] at hv
  · intro c hc
    simpa [List.mem_replicate] using hc

theorem reset_timeout_witness :
    (∀ k, k < uhciConsts.kUHCI_RESET_DELAY →
      (fun _ => 0x0002) k % 65536 &&& uhciConsts.kUHCI_CMD_HCRESET ≠ 0) ∧
    (ResetControllerState uhciConsts (fun _ => 0x0002) runningController).1 =
      .kIOReturnTimeout ∧
    (ResetControllerState uhciConsts (fun _ => 0x0002) runningController).2.trace =
      runningController.trace ++ .Command uhciConsts.kUHCI_CMD_HCRESET ::
        List.replicate uhciConsts.kUHCI_RESET_DELAY (.IOSleep 1) ∧
    (ResetControllerState uhciConsts (fun _ => 0x0002) runningController).2.frbase =
      runningController.frbase ∧
    (∀ v, Effect.ioWrite32 .kUHCI_FRBASEADDR v ∉
      Effect.Command uhciConsts.kUHCI_CMD_HCRESET ::
        List.replicate uhciConsts.kUHCI_RESET_DELAY (Effect.IOSleep 1)) ∧
    (∀ c, Effect.Command c ∈
      Effect.Command uhciConsts.kUHCI_CMD_HCRESET ::
        List.replicate uhciConsts.kUHCI_RESET_DELAY (Effect.IOSleep 1) →
      c = uhciConsts.kUHCI_CMD_HCRESET) :=
  ⟨fun _ _ => (by decide : 0x0002 % 65536 &&& uhciConsts.kUHCI_CMD_HCRESET ≠ 0),
    reset_timeout uhciConsts (fun _ => 0x0002) runningController
      (fun _ _ => (by decide : 0x0002 % 65536 &&& uhciConsts.kUHCI_CMD_HCRESET ≠ 0))⟩

/-- C6 as stated fails: with `_framesPaddr` null and `0x1000` in the frame list base
register, a reset acknowledged at the first poll returns `kIOReturnSuccess` and leaves
`0x1000` in the register, not `_framesPaddr`. -/
theorem reset_success_null_framesPaddr :
    (∃ k, k < uhciConsts.kUHCI_RESET_DELAY ∧
      (fun _ => 0) k % 65536 &&& uhciConsts.kUHCI_CMD_HCRESET = 0) ∧
    (ResetControllerState uhciConsts (fun _ => 0) unallocatedController).1 =
      .kIOReturnSuccess ∧
    (ResetControllerState uhciConsts (fun _ => 0) unallocatedController).2.frbase = 0x1000 ∧
    (ResetControllerState uhciConsts (fun _ => 0) unallocatedController).2.frbase ≠
      unallocatedController._framesPaddr := by
  have hk : ∃ k, k < uhciConsts.kUHCI_RESET_DELAY ∧
      (fun _ => 0) k % 65536 &&& uhciConsts.kUHCI_CMD_HCRESET = 0 :=
    ⟨0, by decide, by decide⟩
  obtain ⟨h1, h2, _⟩ :=
    ResetControllerState_success uhciConsts (fun _ => 0) unallocatedController hk
  refine ⟨hk, h1, ?_, ?_⟩ <;> rw [h2] <;> decide

/-- C6, amended. When some poll with index below `kUHCI_RESET_DELAY` reads the command
register with `kUHCI_CMD_HCRESET` clear, `ResetControllerState` returns `kIOReturnSuccess`,
the last effect is the command `kUHCI_CMD_MAXP | kUHCI_CMD_CF` (which is then the content of
the command register), and the frame list base register equals `_framesPaddr` whenever
`_framesPaddr` is a non-null 32 bit address; when `_framesPaddr` is null the register is not
written and keeps its content. -/
theorem reset_success (K : Consts) (device : Nat → Nat) (s : UHCI)
    (h : ∃ k, k < K.kUHCI_RESET_DELAY ∧ device k % 65536 &&& K.kUHCI_CMD_HCRESET = 0) :
    (ResetControllerState K device s).1 = .kIOReturnSuccess ∧
    (s._framesPaddr ≠ 0 → s._framesPaddr < 4294967296 →
      (ResetControllerState K device s).2.frbase = s._framesPaddr) ∧
    (s._framesPaddr = 0 → (ResetControllerState K device s).2.frbase = s.frbase) ∧
    (ResetControllerState K device s).2.trace.getLast? =
      some (.Command (K.kUHCI_CMD_MAXP ||| K.kUHCI_CMD_CF)) ∧
    (ResetControllerState K device s).2.cmd = (K.kUHCI_CMD_MAXP ||| K.kUHCI_CMD_CF) % 65536 := by
  obtain ⟨h1, h2, h3, h4⟩ := ResetControllerState_success K device s h
  refine ⟨h1, ?_, ?_, h4, h3⟩
  · intro hne h32
    rw [h2, if_pos hne, Nat.mod_eq_of_lt h32]
  · intro h0
    rw [h2, if_neg (by simp [h0])]

theorem reset_success_witness :
    (∃ k, k < uhciConsts.kUHCI_RESET_DELAY ∧
      (fun k => if k < 3 then 0x0002 else 0) k % 65536 &&& uhciConsts.kUHCI_CMD_HCRESET = 0) ∧
    (ResetControllerState uhciConsts (fun k => if k < 3 then 0x0002 else 0)
      { runningController with frbase := 0 }).1 = .kIOReturnSuccess ∧
    (ResetControllerState uhciConsts (fun k => if k < 3 then 0x0002 else 0)
      { runningController with frbase := 0 }).2.frbase = 0x1000 :=
  ⟨⟨3, by decide, by decide⟩,
    (reset_success uhciConsts (fun k => if k < 3 then 0x0002 else 0)
      { runningController with frbase := 0 } ⟨3, by decide, by decide⟩).1,
    (reset_success uhciConsts (fun k => if k < 3 then 0x0002 else 0)
      { runningController with frbase := 0 } ⟨3, by decide, by decide⟩).2.1
      (by decide) (by decide)⟩

/-! ## The interrupt mask -/

/-- C7. For every 16 bit content `v` of the interrupt enable register,
`EnableInterruptsFromController(false)` leaves the register at zero, and
`EnableInterruptsFromController(true)` right after it leaves the register at `v` again and
`_saveInterrupts` at zero. -/
theorem disable_enable_restores_mask (s : UHCI) (h : s.intr < 65536) :
    (EnableInterruptsFromController false s).2.intr = 0 ∧
    (EnableInterruptsFromController true (EnableInterruptsFromController false s).2).2.intr =
      s.intr ∧
    (EnableInterruptsFromController true
      (EnableInterruptsFromController false s).2).2._saveInterrupts = 0 := by
  simp [EnableInterruptsFromController, ioWrite16, ioRead16, EnableUSBInterrupt,
    Nat.mod_eq_of_lt h]

theorem disable_enable_restores_mask_witness :
    runningController.intr < 65536 ∧
    (EnableInterruptsFromController false runningController).2.intr = 0 ∧
    (EnableInterruptsFromController true
      (EnableInterruptsFromController false runningController).2).2.intr = 0x000F ∧
    (EnableInterruptsFromController true
      (EnableInterruptsFromController false runningController).2).2._saveInterrupts = 0 :=
  ⟨by decide, disable_enable_restores_mask runningController (by decide)⟩

/-- C8. `EnableInterruptsFromController(true)` always leaves `_saveInterrupts` at zero, so a
second call with no disable in between writes zero: after two consecutive calls the
interrupt enable register is zero, whatever mask the first call enabled. -/
theorem enable_twice_zeroes_mask (s : UHCI) :
    (EnableInterruptsFromController true s).2._saveInterrupts = 0 ∧
    (EnableInterruptsFromController true (EnableInterruptsFromController true s).2).2.intr = 0 := by
  simp [EnableInterruptsFromController, ioWrite16, EnableUSBInterrupt]

/-! ## The command register across suspend and resume -/

theorem testBit_of_lt_65536 {x : Nat} (h : x < 65536) (j : Nat) (hj : x.testBit j = true) :
    j < 16 := by
  by_contra hge
  have h2 : x < 2 ^ j :=
    lt_of_lt_of_le h (Nat.pow_le_pow_right (by decide) (Nat.le_of_not_lt hge) : 2 ^ 16 ≤ 2 ^ j)
  rw [Nat.testBit_lt_two_pow h2] at hj
  exact Bool.false_ne_true hj

theorem SuspendController_trace (K : Consts) (s : UHCI) :
    (SuspendController K s).trace =
      (forLoop (suspendPort K) 2 (Run K false s)).trace ++
        [.ioWrite16 .kUHCI_CMD (SuspendController K s).cmd, .IOSleep 3] := by
  simp [SuspendController, IOSleep, ioWrite16]

theorem suspendPorts_cmd (K : Consts) (s : UHCI) :
    (forLoop (suspendPort K) 2 s).cmd = s.cmd := by
  simp only [forLoop, suspendPort, WritePortStatus, ReadPortStatus]
  split_ifs <;> rfl

/-- C9. When `EGSM` is a 16 bit flag sharing no bit with `FGR`: after `SuspendController`
the command register has `EGSM` set and `FGR` clear, every bit outside these two flags is
as `Run(false)` left it, `_myBusState` is `kUSBBusStateSuspended`, and the last two effects
are the write of the command register followed by the 3 ms delay. -/
theorem suspend_enters_global_suspend (K : Consts) (s : UHCI)
    (h16 : K.kUHCI_CMD_EGSM < 65536)
    (hd : K.kUHCI_CMD_EGSM &&& K.kUHCI_CMD_FGR = 0) :
    (SuspendController K s).cmd &&& K.kUHCI_CMD_EGSM = K.kUHCI_CMD_EGSM ∧
    (SuspendController K s).cmd &&& K.kUHCI_CMD_FGR = 0 ∧
    (∀ j, K.kUHCI_CMD_EGSM.testBit j = false → K.kUHCI_CMD_FGR.testBit j = false →
      (SuspendController K s).cmd.testBit j = (Run K false s).cmd.testBit j) ∧
    (SuspendController K s)._myBusState = .kUSBBusStateSuspended ∧
    ∃ pre, (SuspendController K s).trace =
      pre ++ [.ioWrite16 .kUHCI_CMD (SuspendController K s).cmd, .IOSleep 3] := by
  have hcmd := (SuspendController_fields K s).2.2.2.2
  have hrun : (Run K false s).cmd = clearBits (s.cmd % 65536) K.kUHCI_CMD_RS % 65536 := by
    simp [Run, ioRead16]
  refine ⟨?_, ?_, ?_, (SuspendController_fields K s).1, _, SuspendController_trace K s⟩
  · rw [hcmd]
    apply Nat.eq_of_testBit_eq
    intro j
    have hE := testBit_of_lt_65536 h16 j
    simp only [Nat.testBit_and, Nat.testBit_or, testBit_clearBits, testBit_mod_65536]
    cases hEj : K.kUHCI_CMD_EGSM.testBit j
    · simp
    · simp [hE hEj]
  · rw [hcmd]
    apply Nat.eq_of_testBit_eq
    intro j
    have hj := and_testBit_of_disjoint hd j
    simp only [Nat.testBit_and, Nat.testBit_or, testBit_clearBits, testBit_mod_65536,
      Nat.zero_testBit]
    cases hE : K.kUHCI_CMD_EGSM.testBit j <;> cases hF : K.kUHCI_CMD_FGR.testBit j <;> simp_all
  · intro j hE hF
    rw [hcmd, hrun]
    simp only [Nat.testBit_or, testBit_clearBits, testBit_mod_65536, hE, hF]
    cases decide (j < 16) <;> simp

theorem suspend_enters_global_suspend_witness :
    uhciConsts.kUHCI_CMD_EGSM < 65536 ∧
    uhciConsts.kUHCI_CMD_EGSM &&& uhciConsts.kUHCI_CMD_FGR = 0 ∧
    ({ runningController with cmd := 0x0041 } : UHCI).cmd =
      uhciConsts.kUHCI_CMD_RS ||| uhciConsts.kUHCI_CMD_CF ∧
    (SuspendController uhciConsts { runningController with cmd := 0x0041 }).cmd &&&
      uhciConsts.kUHCI_CMD_EGSM = uhciConsts.kUHCI_CMD_EGSM ∧
    (SuspendController uhciConsts { runningController with cmd := 0x0041 }).cmd &&&
      uhciConsts.kUHCI_CMD_FGR = 0 ∧
    (SuspendController uhciConsts { runningController with cmd := 0x0041 })._myBusState =
      .kUSBBusStateSuspended :=
  ⟨by decide, by decide, by decide,
    (suspend_enters_global_suspend uhciConsts { runningController with cmd := 0x0041 }
      (by decide) (by decide)).1,
    (suspend_enters_global_suspend uhciConsts { runningController with cmd := 0x0041 }
      (by decide) (by decide)).2.1,
    (suspend_enters_global_suspend uhciConsts { runningController with cmd := 0x0041 }
      (by decide) (by decide)).2.2.2.1⟩

theorem clearBits_or_self (a b : Nat) : clearBits (clearBits (a ||| b) b) a = 0 := by
  apply Nat.eq_of_testBit_eq
  intro j
  simp only [testBit_clearBits, Nat.testBit_or, Nat.zero_testBit]
  cases a.testBit j <;> cases b.testBit j <;> rfl

theorem or_lt_65536 {a b : Nat} (ha : a < 65536) (hb : b < 65536) : a ||| b < 65536 :=
  Nat.or_lt_two_pow (n := 16) ha hb

theorem resumeCommand_from_EGSM (K : Consts) (s : UHCI) (hK : K.cmdFlags)
    (hp : s._framesPaddr ≠ 0) :
    resumeCommand K K.kUHCI_CMD_EGSM s =
      { s with
        cmd := K.kUHCI_CMD_MAXP ||| K.kUHCI_CMD_CF,
        frbase := s._framesPaddr % 4294967296,
        trace := s.trace ++
          [.ioWrite16 .kUHCI_CMD (K.kUHCI_CMD_EGSM ||| K.kUHCI_CMD_FGR),
           .IOSleep 20,
           .ioWrite16 .kUHCI_CMD 0,
           .ioWrite16 .kUHCI_CMD (K.kUHCI_CMD_MAXP ||| K.kUHCI_CMD_CF),
           .ioWrite32 .kUHCI_FRBASEADDR (s._framesPaddr % 4294967296)] } := by
  obtain ⟨⟨_, hE0, hF0, hM0, _⟩, ⟨_, hE, hF, hM, hC⟩, _⟩ := hK
  have c1 : K.kUHCI_CMD_EGSM &&& K.kUHCI_CMD_EGSM ≠ 0 := by rwa [Nat.and_self]
  have e1 : (K.kUHCI_CMD_EGSM ||| K.kUHCI_CMD_FGR) % 65536 =
      K.kUHCI_CMD_EGSM ||| K.kUHCI_CMD_FGR := Nat.mod_eq_of_lt (or_lt_65536 hE hF)
  have c2 : (K.kUHCI_CMD_EGSM ||| K.kUHCI_CMD_FGR) &&& K.kUHCI_CMD_FGR ≠ 0 := by
    rwa [lor_land_self]
  have e3 : (K.kUHCI_CMD_MAXP ||| K.kUHCI_CMD_CF) % 65536 =
      K.kUHCI_CMD_MAXP ||| K.kUHCI_CMD_CF := Nat.mod_eq_of_lt (or_lt_65536 hM hC)
  have c3 : 0 &&& (K.kUHCI_CMD_MAXP ||| K.kUHCI_CMD_CF) ≠ K.kUHCI_CMD_MAXP ||| K.kUHCI_CMD_CF := by
    rw [Nat.zero_and]
    intro h0
    apply hM0
    have h1 : (K.kUHCI_CMD_CF ||| K.kUHCI_CMD_MAXP) &&& K.kUHCI_CMD_MAXP = K.kUHCI_CMD_MAXP :=
      lor_land_self _ _
    rw [Nat.or_comm, ← h0, Nat.zero_and] at h1
    exact h1.symm
  simp only [resumeCommand, ioWrite16, ioRead16, IOSleep, ioWrite32, c1, e1, c2, e3, c3, hp,
    clearBits_or_self, if_true, ne_eq, not_false_eq_true, Nat.zero_mod, Nat.zero_or,
    List.append_assoc, List.singleton_append, List.cons_append, List.nil_append]

/-- C10. With command flags that are distinct 16 bit flags, a command register holding
exactly `EGSM` and a non-null 32 bit `_framesPaddr`, the effects of `ResumeController` are
exactly, in order: the stores setting the terminate bit of every frame list entry; the
write of the command register with `FGR` added (`EGSM | FGR`); the 20 ms delay; the write of
the command register with `FGR` and `EGSM` cleared (zero); the write of the command register
with `MAXP | CF` added; the write of `_framesPaddr` to the frame list base register;
`Run(true)`; the 10 ms delay; the stores clearing the terminate bit of every entry. -/
theorem resume_from_global_suspend_trace (K : Consts) (s : UHCI) (hK : K.cmdFlags)
    (hcmd : s.cmd = K.kUHCI_CMD_EGSM) (hp : s._framesPaddr ≠ 0)
    (h32 : s._framesPaddr < 4294967296) :
    (ResumeController K s).trace =
      s.trace ++
        (setTerminate K s._frameList ++
          [.ioWrite16 .kUHCI_CMD (K.kUHCI_CMD_EGSM ||| K.kUHCI_CMD_FGR),
           .IOSleep 20,
           .ioWrite16 .kUHCI_CMD 0,
           .ioWrite16 .kUHCI_CMD (K.kUHCI_CMD_MAXP ||| K.kUHCI_CMD_CF),
           .ioWrite32 .kUHCI_FRBASEADDR s._framesPaddr,
           .Run true,
           .IOSleep 10] ++
          clearTerminate K s._frameList) := by
  have hread : ioRead16 .kUHCI_CMD s = K.kUHCI_CMD_EGSM := by
    rw [ioRead16, hcmd, Nat.mod_eq_of_lt hK.2.1.2.1]
  have hrs : ioRead16 .kUHCI_CMD s &&& K.kUHCI_CMD_RS = 0 := by
    rw [hread, Nat.and_comm]
    exact hK.2.2.1
  rw [ResumeController_eq, if_neg (by simpa using hrs), forLoop_frameListAndNot, hread]
  simp only [IOSleep, Run]
  rw [resumeCommand_from_EGSM K _ hK (by rw [forLoop_frameListOr]; exact hp),
    forLoop_frameListOr]
  simp only [setTerminate, clearTerminate, Nat.mod_eq_of_lt h32, List.append_assoc,
    List.cons_append, List.nil_append, List.append_cancel_left_eq, List.cons.injEq, true_and]
  apply List.map_congr_left
  intro a ha
  rw [if_pos (List.mem_range.mp ha)]

theorem resume_from_global_suspend_trace_witness :
    uhciConsts.cmdFlags ∧
    suspendedController.cmd = uhciConsts.kUHCI_CMD_EGSM ∧
    suspendedController._framesPaddr ≠ 0 ∧
    suspendedController._framesPaddr < 4294967296 ∧
    (ResumeController uhciConsts suspendedController).trace =
      suspendedController.trace ++
        (setTerminate uhciConsts suspendedController._frameList ++
          [.ioWrite16 .kUHCI_CMD 0x0018,
           .IOSleep 20,
           .ioWrite16 .kUHCI_CMD 0,
           .ioWrite16 .kUHCI_CMD 0x00C0,
           .ioWrite32 .kUHCI_FRBASEADDR 0x1000,
           .Run true,
           .IOSleep 10] ++
          clearTerminate uhciConsts suspendedController._frameList) :=
  ⟨by decide, by decide, by decide, by decide,
    resume_from_global_suspend_trace uhciConsts suspendedController (by decide) (by decide)
      (by decide) (by decide)⟩

/-! ## The frame list across stop and resume -/

theorem ResetControllerState_frameList (K : Consts) (device : Nat → Nat) (s : UHCI) :
    (ResetControllerState K device s).2._frameList = s._frameList := by
  have h := (resetPoll_spec K device K.kUHCI_RESET_DELAY 0
    (Command K.kUHCI_CMD_HCRESET s)).2.2.2.2.2.2.2.1
  have h0 : (Command K.kUHCI_CMD_HCRESET s)._frameList = s._frameList := rfl
  rw [ResetControllerState_eq]
  split_ifs
  · exact h.trans h0
  · simp only [Command, ioWrite32]
    exact h.trans h0
  · simp only [Command]
    exact h.trans h0

theorem clearBits_or_cancel (x m : Nat) : clearBits (x ||| m) m = clearBits x m := by
  apply Nat.eq_of_testBit_eq
  intro j
  simp only [testBit_clearBits, Nat.testBit_or]
  cases x.testBit j <;> cases m.testBit j <;> rfl

/-- C13 as stated fails: on the running controller, whose frame list entry 1 is `16` with
the terminate bit clear, the entry is still `16` after `SuspendController`, after
`DozeController`, after a reset that times out and after a reset that succeeds. -/
theorem terminate_bit_not_set_by_stop :
    frameT uhciConsts = 1 ∧ 1 < uhciConsts.kUHCI_NVFRAMES ∧
    (SuspendController uhciConsts runningController)._frameList 1 &&& frameT uhciConsts ≠
      frameT uhciConsts ∧
    (DozeController uhciConsts runningController).2._frameList 1 &&& frameT uhciConsts ≠
      frameT uhciConsts ∧
    (ResetControllerState uhciConsts (fun _ => 0x0002) runningController).2._frameList 1 &&&
      frameT uhciConsts ≠ frameT uhciConsts ∧
    (ResetControllerState uhciConsts (fun _ => 0) runningController).2._frameList 1 &&&
      frameT uhciConsts ≠ frameT uhciConsts := by
  rw [(SuspendController_fields uhciConsts runningController).2.2.2.1,
    ResetControllerState_frameList, ResetControllerState_frameList]
  decide

/-- C13, amended. `SuspendController`, `DozeController` and `ResetControllerState`, whether
it times out or succeeds, do not store to the frame list: every entry is after the call
what it was before, so an entry carries the terminate bit after the call exactly when it
carried it before. -/
theorem stop_leaves_frame_list (K : Consts) (device : Nat → Nat) (s : UHCI) :
    (SuspendController K s)._frameList = s._frameList ∧
    (DozeController K s).2._frameList = s._frameList ∧
    (ResetControllerState K device s).2._frameList = s._frameList :=
  ⟨(SuspendController_fields K s).2.2.2.1, rfl, ResetControllerState_frameList K device s⟩

/-- C20. From a state whose run bit reads clear, `ResumeController` leaves every frame list
entry `i < kUHCI_NVFRAMES` equal to its value on entry with the terminate bit cleared: the
bits outside `HostToUSBLong(kUHCI_FRAME_T)` are those of the value on entry, and the
terminate bit is clear whether or not it was set on entry. -/
theorem resume_clears_terminate (K : Consts) (s : UHCI)
    (h : ioRead16 .kUHCI_CMD s &&& K.kUHCI_CMD_RS = 0) (i : Nat) (hi : i < K.kUHCI_NVFRAMES) :
    (ResumeController K s)._frameList i = clearBits (s._frameList i) (frameT K) ∧
    (ResumeController K s)._frameList i &&& frameT K = 0 ∧
    ∀ j, (frameT K).testBit j = false →
      ((ResumeController K s)._frameList i).testBit j = (s._frameList i).testBit j := by
  have hfl : (ResumeController K s)._frameList i = clearBits (s._frameList i) (frameT K) := by
    rw [ResumeController_frameList K s h]
    simp only [hi, if_true]
    exact clearBits_or_cancel _ _
  refine ⟨hfl, ?_, ?_⟩
  · rw [hfl]; exact clearBits_and_self _ _
  · intro j hj
    rw [hfl, testBit_clearBits, hj]
    simp

theorem resume_clears_terminate_witness :
    ioRead16 .kUHCI_CMD suspendedController &&& uhciConsts.kUHCI_CMD_RS = 0 ∧
    (5 : Nat) < uhciConsts.kUHCI_NVFRAMES ∧
    (ResumeController uhciConsts { suspendedController with _frameList := fun _ => 0x2001 })._frameList 5
      = 0x2000 :=
  ⟨by decide, by decide,
    (resume_clears_terminate uhciConsts { suspendedController with _frameList := fun _ => 0x2001 }
      (by decide) 5 (by decide)).1⟩

/-! ## Doze, restart and return codes -/

theorem Run_true_sets_RS (K : Consts) (s : UHCI) (hRS : K.kUHCI_CMD_RS < 65536) :
    (Run K true s).cmd &&& K.kUHCI_CMD_RS = K.kUHCI_CMD_RS := by
  simp only [Run, ioRead16, if_true]
  apply Nat.eq_of_testBit_eq
  intro j
  have hR := testBit_of_lt_65536 hRS j
  simp only [Nat.testBit_and, Nat.testBit_or, testBit_mod_65536]
  cases hRj : K.kUHCI_CMD_RS.testBit j
  · simp
  · simp [hR hRj]

theorem Run_false_clears_RS (K : Consts) (s : UHCI) :
    (Run K false s).cmd &&& K.kUHCI_CMD_RS = 0 := by
  simp only [Run, ioRead16, Bool.false_eq_true, if_false]
  apply Nat.eq_of_testBit_eq
  intro j
  simp only [Nat.testBit_and, testBit_clearBits, testBit_mod_65536, Nat.zero_testBit]
  cases K.kUHCI_CMD_RS.testBit j <;> simp

/-- C14. When `RS` and the mask `TIE | RIE | IOCE | SPIE` are 16 bit values:
`RestartControllerFromReset` returns `kIOReturnSuccess`, its only effect is `Run(true)`,
after which the run bit is set, it leaves the interrupt enable register as it was and
`_saveInterrupts` equal to `TIE | RIE | IOCE | SPIE`; `EnableInterruptsFromController(true)`
called next writes exactly that mask to the interrupt enable register. -/
theorem restart_arms_interrupt_mask (K : Consts) (s : UHCI)
    (hRS : K.kUHCI_CMD_RS < 65536)
    (hmask : K.kUHCI_INTR_TIE ||| K.kUHCI_INTR_RIE ||| K.kUHCI_INTR_IOCE ||| K.kUHCI_INTR_SPIE
      < 65536) :
    (RestartControllerFromReset K s).1 = .kIOReturnSuccess ∧
    (RestartControllerFromReset K s).2.trace = s.trace ++ [.Run true] ∧
    (RestartControllerFromReset K s).2.cmd &&& K.kUHCI_CMD_RS = K.kUHCI_CMD_RS ∧
    (RestartControllerFromReset K s).2.intr = s.intr ∧
    (RestartControllerFromReset K s).2._saveInterrupts =
      K.kUHCI_INTR_TIE ||| K.kUHCI_INTR_RIE ||| K.kUHCI_INTR_IOCE ||| K.kUHCI_INTR_SPIE ∧
    (EnableInterruptsFromController true (RestartControllerFromReset K s).2).2.intr =
      K.kUHCI_INTR_TIE ||| K.kUHCI_INTR_RIE ||| K.kUHCI_INTR_IOCE ||| K.kUHCI_INTR_SPIE ∧
    (EnableInterruptsFromController true (RestartControllerFromReset K s).2).2.trace =
      s.trace ++ [.Run true,
        .ioWrite16 .kUHCI_INTR
          (K.kUHCI_INTR_TIE ||| K.kUHCI_INTR_RIE ||| K.kUHCI_INTR_IOCE ||| K.kUHCI_INTR_SPIE),
        .EnableUSBInterrupt true] := by
  refine ⟨rfl, ?_, ?_, ?_, ?_, ?_, ?_⟩
  · simp [RestartControllerFromReset, Run]
  · exact Run_true_sets_RS K s hRS
  · simp [RestartControllerFromReset, Run]
  · simp [RestartControllerFromReset]
  · simp [RestartControllerFromReset, EnableInterruptsFromController, ioWrite16,
      EnableUSBInterrupt, Nat.mod_eq_of_lt hmask]
  · simp [RestartControllerFromReset, EnableInterruptsFromController, ioWrite16,
      EnableUSBInterrupt, Run, Nat.mod_eq_of_lt hmask]

theorem restart_arms_interrupt_mask_witness :
    uhciConsts.kUHCI_CMD_RS < 65536 ∧
    (RestartControllerFromReset uhciConsts { runningController with cmd := 0x00C0, intr := 0 }).2.intr
      = 0 ∧
    (RestartControllerFromReset uhciConsts
      { runningController with cmd := 0x00C0, intr := 0 }).2._saveInterrupts = 0x000F ∧
    (EnableInterruptsFromController true (RestartControllerFromReset uhciConsts
      { runningController with cmd := 0x00C0, intr := 0 }).2).2.intr = 0x000F :=
  ⟨by decide,
    (restart_arms_interrupt_mask uhciConsts { runningController with cmd := 0x00C0, intr := 0 }
      (by decide) (by decide)).2.2.2.1,
    (restart_arms_interrupt_mask uhciConsts { runningController with cmd := 0x00C0, intr := 0 }
      (by decide) (by decide)).2.2.2.2.1,
    (restart_arms_interrupt_mask uhciConsts { runningController with cmd := 0x00C0, intr := 0 }
      (by decide) (by decide)).2.2.2.2.2.1⟩

/-- C15. When `RS` is a 16 bit flag: `DozeController` leaves the run bit clear and
`_myBusState` at `kUSBBusStateSuspended`; `WakeControllerFromDoze` leaves the run bit set
and `_myBusState` at `kUSBBusStateRunning`; `DozeController` followed by
`WakeControllerFromDoze` changes the state in the command register, in `_myBusState` and
in the record of effects (`Run(false)`, `Run(true)`) only, and every bit of the command
register outside `RS` is as it was read before. -/
theorem doze_wake_frame (K : Consts) (s : UHCI) (hRS : K.kUHCI_CMD_RS < 65536) :
    ((DozeController K s).2.cmd &&& K.kUHCI_CMD_RS = 0 ∧
      (DozeController K s).2._myBusState = .kUSBBusStateSuspended) ∧
    ((WakeControllerFromDoze K s).2.cmd &&& K.kUHCI_CMD_RS = K.kUHCI_CMD_RS ∧
      (WakeControllerFromDoze K s).2._myBusState = .kUSBBusStateRunning) ∧
    (WakeControllerFromDoze K (DozeController K s).2).2 =
      { s with cmd := (WakeControllerFromDoze K (DozeController K s).2).2.cmd,
               _myBusState := .kUSBBusStateRunning,
               trace := s.trace ++ [.Run false, .Run true] } ∧
    (∀ j, K.kUHCI_CMD_RS.testBit j = false →
      (WakeControllerFromDoze K (DozeController K s).2).2.cmd.testBit j =
        (ioRead16 .kUHCI_CMD s).testBit j) ∧
    (WakeControllerFromDoze K (DozeController K s).2).2.frbase = s.frbase ∧
    (WakeControllerFromDoze K (DozeController K s).2).2._frameList = s._frameList ∧
    (WakeControllerFromDoze K (DozeController K s).2).2._saveInterrupts = s._saveInterrupts := by
  refine ⟨⟨Run_false_clears_RS K s, rfl⟩, ⟨Run_true_sets_RS K s hRS, rfl⟩, ?_, ?_, rfl, rfl, rfl⟩
  · simp [WakeControllerFromDoze, DozeController, Run]
  · intro j hj
    simp only [WakeControllerFromDoze, DozeController, Run, ioRead16, Bool.false_eq_true,
      if_false, if_true, Nat.testBit_or, testBit_clearBits, testBit_mod_65536, hj]
    cases decide (j < 16) <;> simp

theorem doze_wake_frame_witness :
    uhciConsts.kUHCI_CMD_RS < 65536 ∧
    (DozeController uhciConsts runningController).2.cmd &&& uhciConsts.kUHCI_CMD_RS = 0 ∧
    (WakeControllerFromDoze uhciConsts
      (DozeController uhciConsts runningController).2).2._frameList =
        runningController._frameList :=
  ⟨by decide, (doze_wake_frame uhciConsts runningController (by decide)).1.1,
    (doze_wake_frame uhciConsts runningController (by decide)).2.2.2.2.2.1⟩

/-- C16. `SaveControllerStateForSleep`, `RestoreControllerStateFromSleep`,
`RestartControllerFromReset`, `EnableInterruptsFromController` with either argument,
`DozeController` and `WakeControllerFromDoze` return `kIOReturnSuccess` from every state.
`ResetControllerState` returns `kIOReturnSuccess` or `kIOReturnTimeout`: the second exactly
when all `kUHCI_RESET_DELAY` polls read `kUHCI_CMD_HCRESET` set. -/
theorem only_reset_reports_failure (K : Consts) (device : Nat → Nat) (s : UHCI) :
    (SaveControllerStateForSleep K s).1 = .kIOReturnSuccess ∧
    (RestoreControllerStateFromSleep K s).1 = .kIOReturnSuccess ∧
    (RestartControllerFromReset K s).1 = .kIOReturnSuccess ∧
    (EnableInterruptsFromController true s).1 = .kIOReturnSuccess ∧
    (EnableInterruptsFromController false s).1 = .kIOReturnSuccess ∧
    (DozeController K s).1 = .kIOReturnSuccess ∧
    (WakeControllerFromDoze K s).1 = .kIOReturnSuccess ∧
    ((ResetControllerState K device s).1 = .kIOReturnSuccess ∨
      (ResetControllerState K device s).1 = .kIOReturnTimeout) ∧
    ((ResetControllerState K device s).1 = .kIOReturnTimeout ↔
      ∀ k, k < K.kUHCI_RESET_DELAY → device k % 65536 &&& K.kUHCI_CMD_HCRESET ≠ 0) := by
  have hreset : (ResetControllerState K device s).1 = .kIOReturnTimeout ↔
      ∀ k, k < K.kUHCI_RESET_DELAY → device k % 65536 &&& K.kUHCI_CMD_HCRESET ≠ 0 := by
    constructor
    · intro ht k hk hclear
      have hs := (ResetControllerState_success K device s ⟨k, hk, hclear⟩).1
      rw [ht] at hs
      exact IOReturn.noConfusion hs
    · intro hall
      exact (ResetControllerState_timeout K device s hall).1
  refine ⟨rfl, rfl, rfl, rfl, rfl, rfl, rfl, ?_, hreset⟩
  by_cases hall : ∀ k, k < K.kUHCI_RESET_DELAY → device k % 65536 &&& K.kUHCI_CMD_HCRESET ≠ 0
  · exact Or.inr (hreset.mpr hall)
  · push_neg at hall
    obtain ⟨k, hk, hclear⟩ := hall
    exact Or.inl (ResetControllerState_success K device s ⟨k, hk, hclear⟩).1

/-! ## The port loop of `SuspendController` -/

theorem SuspendController_port_trace (K : Consts) (s : UHCI)
    (hOCI : K.kUHCI_PORTSC_OCI < 65536) :
    (SuspendController K s).trace =
      s.trace ++ .Run false :: (overcurrentClear K s 0 ++ overcurrentClear K s 1 ++
        [.ioWrite16 .kUHCI_CMD (SuspendController K s).cmd, .IOSleep 3]) := by
  simp only [SuspendController, forLoop, suspendPort, IOSleep, ioWrite16, ioRead16, Run,
    ReadPortStatus, WritePortStatus, Bool.false_eq_true, if_false, overcurrentClear,
    overcurrentLatched, Nat.mod_eq_of_lt hOCI]
  split_ifs <;> simp_all

theorem clearBits_of_disjoint {x m : Nat} (h : x &&& m = 0) : clearBits x m = x := by
  unfold clearBits
  rw [h, Nat.xor_zero]

theorem lor_of_land_eq {x m : Nat} (h : x &&& m = m) : x ||| m = x := by
  apply Nat.eq_of_testBit_eq
  intro j
  have hj := congrArg (fun y => y.testBit j) h
  simp only [Nat.testBit_and] at hj
  rw [Nat.testBit_or]
  cases hx : x.testBit j <;> cases hm : m.testBit j <;> simp_all

theorem clearBits_lt_65536 {x : Nat} (m : Nat) (h : x < 65536) : clearBits x m < 65536 :=
  clearBits_lt x m 16 h

theorem resumeCommand_read (K : Consts) (c : Nat) (s : UHCI) (hK : K.cmdFlags)
    (hc : c < 65536) (hs : ioRead16 .kUHCI_CMD s = c) :
    ioRead16 .kUHCI_CMD (resumeCommand K c s) =
      clearBits (clearBits c K.kUHCI_CMD_FGR) K.kUHCI_CMD_EGSM |||
        (K.kUHCI_CMD_MAXP ||| K.kUHCI_CMD_CF) := by
  obtain ⟨⟨_, hE0, hF0, hM0, _⟩, ⟨_, hE, hF, hM, hC⟩, _⟩ := hK
  have ht : clearBits (clearBits c K.kUHCI_CMD_FGR) K.kUHCI_CMD_EGSM < 65536 :=
    clearBits_lt_65536 _ (clearBits_lt_65536 _ hc)
  have hMC : K.kUHCI_CMD_MAXP ||| K.kUHCI_CMD_CF < 65536 := or_lt_65536 hM hC
  have e1 : (c ||| K.kUHCI_CMD_FGR) % 65536 = c ||| K.kUHCI_CMD_FGR :=
    Nat.mod_eq_of_lt (or_lt_65536 hc hF)
  have c2 : (c ||| K.kUHCI_CMD_FGR) &&& K.kUHCI_CMD_FGR ≠ 0 := by rwa [lor_land_self]
  have e2 : clearBits (clearBits (c ||| K.kUHCI_CMD_FGR) K.kUHCI_CMD_FGR) K.kUHCI_CMD_EGSM =
      clearBits (clearBits c K.kUHCI_CMD_FGR) K.kUHCI_CMD_EGSM := by
    rw [clearBits_or_cancel]
  have e3 : (clearBits (clearBits c K.kUHCI_CMD_FGR) K.kUHCI_CMD_EGSM |||
      (K.kUHCI_CMD_MAXP ||| K.kUHCI_CMD_CF)) % 65536 =
      clearBits (clearBits c K.kUHCI_CMD_FGR) K.kUHCI_CMD_EGSM |||
        (K.kUHCI_CMD_MAXP ||| K.kUHCI_CMD_CF) := Nat.mod_eq_of_lt (or_lt_65536 ht hMC)
  have e4 : clearBits (clearBits c K.kUHCI_CMD_FGR) K.kUHCI_CMD_EGSM % 65536 =
      clearBits (clearBits c K.kUHCI_CMD_FGR) K.kUHCI_CMD_EGSM := Nat.mod_eq_of_lt ht
  simp only [ioRead16] at hs
  by_cases h1 : c &&& K.kUHCI_CMD_EGSM ≠ 0
  · by_cases h3 : clearBits (clearBits c K.kUHCI_CMD_FGR) K.kUHCI_CMD_EGSM &&&
        (K.kUHCI_CMD_MAXP ||| K.kUHCI_CMD_CF) ≠ K.kUHCI_CMD_MAXP ||| K.kUHCI_CMD_CF
    · simp only [resumeCommand, ioWrite16, ioRead16, IOSleep, ioWrite32, h1, e1, c2, e2, h3,
        if_true, ne_eq, not_false_eq_true, Nat.mod_mod]
      split_ifs <;> simp only [e3, Nat.mod_mod]
    · simp only [resumeCommand, ioWrite16, ioRead16, IOSleep, ioWrite32, h1, e1, c2, e2, h3,
        if_true, if_false, ne_eq, not_false_eq_true, Nat.mod_mod]
      rw [lor_of_land_eq (not_not.mp h3)]
      split_ifs <;> simp only [e4, Nat.mod_mod]
  · have h1' : c &&& K.kUHCI_CMD_EGSM = 0 := not_not.mp h1
    by_cases h2 : c &&& K.kUHCI_CMD_FGR ≠ 0
    · by_cases h3 : clearBits (clearBits c K.kUHCI_CMD_FGR) K.kUHCI_CMD_EGSM &&&
          (K.kUHCI_CMD_MAXP ||| K.kUHCI_CMD_CF) ≠ K.kUHCI_CMD_MAXP ||| K.kUHCI_CMD_CF
      · simp only [resumeCommand, ioWrite16, ioRead16, IOSleep, ioWrite32, h1, h2, h3,
          if_true, if_false, ne_eq, not_false_eq_true, Nat.mod_mod]
        split_ifs <;> simp only [e3, Nat.mod_mod]
      · simp only [resumeCommand, ioWrite16, ioRead16, IOSleep, ioWrite32, h1, h2, h3,
          if_true, if_false, ne_eq, not_false_eq_true, Nat.mod_mod]
        rw [lor_of_land_eq (not_not.mp h3)]
        split_ifs <;> simp only [e4, Nat.mod_mod]
    · have h2' : c &&& K.kUHCI_CMD_FGR = 0 := not_not.mp h2
      have et : clearBits (clearBits c K.kUHCI_CMD_FGR) K.kUHCI_CMD_EGSM = c := by
        rw [clearBits_of_disjoint h2', clearBits_of_disjoint h1']
      rw [et] at e3 ⊢
      by_cases h3 : c &&& (K.kUHCI_CMD_MAXP ||| K.kUHCI_CMD_CF) ≠
          K.kUHCI_CMD_MAXP ||| K.kUHCI_CMD_CF
      · simp only [resumeCommand, ioWrite16, ioRead16, IOSleep, ioWrite32, h1, h2, h3,
          if_true, if_false, ne_eq, not_false_eq_true, Nat.mod_mod]
        split_ifs <;> simp only [e3, Nat.mod_mod]
      · simp only [resumeCommand, ioWrite16, ioRead16, IOSleep, ioWrite32, h1, h2, h3,
          if_true, if_false, ne_eq, not_false_eq_true, Nat.mod_mod]
        rw [lor_of_land_eq (not_not.mp h3)]
        split_ifs <;> simp only [hs]

theorem resumeCommand_sleep (K : Consts) (c : Nat) (s : UHCI) (hK : K.cmdFlags)
    (hc : c < 65536) :
    ∃ mid, (resumeCommand K c s).trace = s.trace ++ mid ∧
      (∀ e ∈ mid, isCommandEffect e) ∧
      (Effect.IOSleep 20 ∈ mid ↔
        (c &&& K.kUHCI_CMD_EGSM ≠ 0 ∨ c &&& K.kUHCI_CMD_FGR ≠ 0)) := by
  obtain ⟨⟨_, hE0, hF0, hM0, _⟩, ⟨_, hE, hF, hM, hC⟩, _⟩ := hK
  have e1 : (c ||| K.kUHCI_CMD_FGR) % 65536 = c ||| K.kUHCI_CMD_FGR :=
    Nat.mod_eq_of_lt (or_lt_65536 hc hF)
  have c2 : (c ||| K.kUHCI_CMD_FGR) &&& K.kUHCI_CMD_FGR ≠ 0 := by rwa [lor_land_self]
  by_cases h1 : c &&& K.kUHCI_CMD_EGSM ≠ 0
  · simp only [resumeCommand, ioWrite16, ioRead16, IOSleep, ioWrite32, h1, e1, c2,
      if_true, ne_eq, not_false_eq_true, Nat.mod_mod]
    split_ifs <;> simp_all [isCommandEffect]
  · by_cases h2 : c &&& K.kUHCI_CMD_FGR ≠ 0
    · simp only [resumeCommand, ioWrite16, ioRead16, IOSleep, ioWrite32, h1, h2,
        if_true, if_false, ne_eq, not_false_eq_true, Nat.mod_mod]
      split_ifs <;> simp_all [isCommandEffect]
    · simp only [resumeCommand, ioWrite16, ioRead16, IOSleep, ioWrite32, h1, h2,
        if_true, if_false, ne_eq, not_false_eq_true, Nat.mod_mod]
      split_ifs <;> simp_all [isCommandEffect]

theorem ResumeController_cmd (K : Consts) (s : UHCI) (hK : K.cmdFlags)
    (h : ioRead16 .kUHCI_CMD s &&& K.kUHCI_CMD_RS = 0) :
    (ResumeController K s).cmd =
      clearBits (clearBits (ioRead16 .kUHCI_CMD s) K.kUHCI_CMD_FGR) K.kUHCI_CMD_EGSM |||
        (K.kUHCI_CMD_MAXP ||| K.kUHCI_CMD_CF) ||| K.kUHCI_CMD_RS := by
  have hc : ioRead16 .kUHCI_CMD s < 65536 := by
    simp only [ioRead16]
    exact Nat.mod_lt _ (by decide)
  have hs : ioRead16 .kUHCI_CMD (forLoop (frameListOr (frameT K)) K.kUHCI_NVFRAMES s) =
      ioRead16 .kUHCI_CMD s := by
    rw [forLoop_frameListOr]
    rfl
  have hread := resumeCommand_read K (ioRead16 .kUHCI_CMD s)
    (forLoop (frameListOr (frameT K)) K.kUHCI_NVFRAMES s) hK hc hs
  obtain ⟨_, ⟨hR, _, _, hM, hC⟩, _⟩ := hK
  rw [ResumeController_eq, if_neg (by simpa using h), forLoop_frameListAndNot]
  simp only [IOSleep, Run, if_true]
  rw [hread]
  exact Nat.mod_eq_of_lt (or_lt_65536 (or_lt_65536
    (clearBits_lt_65536 _ (clearBits_lt_65536 _ hc)) (or_lt_65536 hM hC)) hR)

/-- C18. With command flags that are distinct 16 bit flags and the run bit reading clear on
entry: after `ResumeController` the command register has `FGR` and `EGSM` clear and `MAXP`,
`CF` and `RS` set, every bit outside these five flags is as it was read on entry, and the
20 ms delay is among the effects of the method exactly when `EGSM` or `FGR` was set in the
command register on entry. -/
theorem resume_command_register (K : Consts) (s : UHCI) (hK : K.cmdFlags)
    (h : ioRead16 .kUHCI_CMD s &&& K.kUHCI_CMD_RS = 0) :
    (ResumeController K s).cmd &&& K.kUHCI_CMD_FGR = 0 ∧
    (ResumeController K s).cmd &&& K.kUHCI_CMD_EGSM = 0 ∧
    (ResumeController K s).cmd &&& K.kUHCI_CMD_MAXP = K.kUHCI_CMD_MAXP ∧
    (ResumeController K s).cmd &&& K.kUHCI_CMD_CF = K.kUHCI_CMD_CF ∧
    (ResumeController K s).cmd &&& K.kUHCI_CMD_RS = K.kUHCI_CMD_RS ∧
    (∀ j, K.kUHCI_CMD_RS.testBit j = false → K.kUHCI_CMD_EGSM.testBit j = false →
      K.kUHCI_CMD_FGR.testBit j = false → K.kUHCI_CMD_MAXP.testBit j = false →
      K.kUHCI_CMD_CF.testBit j = false →
      (ResumeController K s).cmd.testBit j = (ioRead16 .kUHCI_CMD s).testBit j) ∧
    ∃ new, (ResumeController K s).trace = s.trace ++ new ∧
      (Effect.IOSleep 20 ∈ new ↔
        (ioRead16 .kUHCI_CMD s &&& K.kUHCI_CMD_EGSM ≠ 0 ∨
          ioRead16 .kUHCI_CMD s &&& K.kUHCI_CMD_FGR ≠ 0)) := by
  have hcmd := ResumeController_cmd K s hK h
  have hc : ioRead16 .kUHCI_CMD s < 65536 := by
    simp only [ioRead16]
    exact Nat.mod_lt _ (by decide)
  obtain ⟨_, _, hRE, hRF, hRM, hRC, hEF, hEM, hEC, hFM, hFC, hMC⟩ := hK
  refine ⟨?_, ?_, ?_, ?_, ?_, ?_, ?_⟩
  · rw [hcmd]
    apply Nat.eq_of_testBit_eq
    intro j
    have a1 := and_testBit_of_disjoint hRF j
    have a2 := and_testBit_of_disjoint hFM j
    have a3 := and_testBit_of_disjoint hFC j
    simp only [Nat.testBit_and, Nat.testBit_or, testBit_clearBits, Nat.zero_testBit]
    cases hF : K.kUHCI_CMD_FGR.testBit j <;> simp_all
  · rw [hcmd]
    apply Nat.eq_of_testBit_eq
    intro j
    have a1 := and_testBit_of_disjoint hRE j
    have a2 := and_testBit_of_disjoint hEM j
    have a3 := and_testBit_of_disjoint hEC j
    simp only [Nat.testBit_and, Nat.testBit_or, testBit_clearBits, Nat.zero_testBit]
    cases hE : K.kUHCI_CMD_EGSM.testBit j <;> simp_all
  · rw [hcmd]
    apply Nat.eq_of_testBit_eq
    intro j
    simp only [Nat.testBit_and, Nat.testBit_or, testBit_clearBits]
    cases K.kUHCI_CMD_MAXP.testBit j <;> simp
  · rw [hcmd]
    apply Nat.eq_of_testBit_eq
    intro j
    simp only [Nat.testBit_and, Nat.testBit_or, testBit_clearBits]
    cases K.kUHCI_CMD_CF.testBit j <;> simp
  · rw [hcmd]
    apply Nat.eq_of_testBit_eq
    intro j
    simp only [Nat.testBit_and, Nat.testBit_or, testBit_clearBits]
    cases K.kUHCI_CMD_RS.testBit j <;> simp
  · intro j hR hE hF hM hC
    rw [hcmd]
    simp only [Nat.testBit_or, testBit_clearBits, hR, hE, hF, hM, hC]
    simp
  · obtain ⟨mid, hmid, hcom, hsleep⟩ := resumeCommand_sleep K (ioRead16 .kUHCI_CMD s)
      (forLoop (frameListOr (frameT K)) K.kUHCI_NVFRAMES s)
      ⟨by assumption, by assumption, hRE, hRF, hRM, hRC, hEF, hEM, hEC, hFM, hFC, hMC⟩ hc
    refine ⟨setTerminate K s._frameList ++ mid ++ [.Run true, .IOSleep 10] ++
      clearTerminate K s._frameList, ?_, ?_⟩
    · rw [ResumeController_eq, if_neg (by simpa using h), forLoop_frameListAndNot]
      simp only [IOSleep, Run]
      rw [hmid, (resumeCommand_fields K _ _).1, forLoop_frameListOr]
      simp only [setTerminate, clearTerminate, List.append_assoc, List.cons_append,
        List.nil_append, List.append_cancel_left_eq, List.cons.injEq, true_and]
      apply List.map_congr_left
      intro a ha
      rw [if_pos (List.mem_range.mp ha)]
    · rw [← hsleep]
      simp [setTerminate, clearTerminate]

theorem resume_command_register_witness :
    uhciConsts.cmdFlags ∧
    ioRead16 .kUHCI_CMD { suspendedController with cmd := 0x0030 } &&&
      uhciConsts.kUHCI_CMD_RS = 0 ∧
    (ResumeController uhciConsts { suspendedController with cmd := 0x0030 }).cmd &&&
      uhciConsts.kUHCI_CMD_FGR = 0 ∧
    (ResumeController uhciConsts { suspendedController with cmd := 0x0030 }).cmd &&&
      uhciConsts.kUHCI_CMD_RS = uhciConsts.kUHCI_CMD_RS :=
  ⟨by decide, by decide,
    (resume_command_register uhciConsts { suspendedController with cmd := 0x0030 }
      (by decide) (by decide)).1,
    (resume_command_register uhciConsts { suspendedController with cmd := 0x0030 }
      (by decide) (by decide)).2.2.2.2.1⟩

/-! ## The cost of the reset poll -/

theorem resetPollCounted_eq (K : Consts) (device : Nat → Nat) (left i : Nat) (s : UHCI)
    (reads : Nat) :
    (resetPollCounted K device left i s reads).1 = (resetPoll K device left i s).1 ∧
    (resetPollCounted K device left i s reads).2.1 = (resetPoll K device left i s).2 ∧
    (resetPollCounted K device left i s reads).2.2 =
      reads + (if (resetPoll K device left i s).1 < i + left
        then (resetPoll K device left i s).1 - i + 1 else left) := by
  induction left generalizing i s reads with
  | zero => simp [resetPollCounted, resetPoll]
  | succ left ih =>
    by_cases hc : device i % 65536 &&& K.kUHCI_CMD_HCRESET ≠ 0
    · have h1 : resetPollCounted K device (left + 1) i s reads =
          resetPollCounted K device left (i + 1)
            { s with cmd := device i, trace := s.trace ++ [.IOSleep 1] } (reads + 1) := by
        simp only [resetPollCounted, ioRead16, IOSleep]
        rw [if_pos hc]
      have h2 : resetPoll K device (left + 1) i s =
          resetPoll K device left (i + 1)
            { s with cmd := device i, trace := s.trace ++ [.IOSleep 1] } := by
        simp only [resetPoll, ioRead16, IOSleep]
        rw [if_pos hc]
      obtain ⟨a, b, c⟩ := ih (i + 1)
        { s with cmd := device i, trace := s.trace ++ [.IOSleep 1] } (reads + 1)
      have hge := (resetPoll_spec K device left (i + 1)
        { s with cmd := device i, trace := s.trace ++ [.IOSleep 1] }).1
      rw [h1, h2]
      refine ⟨a, b, ?_⟩
      rw [c]
      split_ifs <;> omega
    · have h1 : resetPollCounted K device (left + 1) i s reads =
          (i, { s with cmd := device i }, reads + 1) := by
        simp only [resetPollCounted, ioRead16]
        rw [if_neg hc]
      have h2 : resetPoll K device (left + 1) i s = (i, { s with cmd := device i }) := by
        simp only [resetPoll, ioRead16]
        rw [if_neg hc]
      rw [h1, h2]
      refine ⟨rfl, rfl, ?_⟩
      simp

theorem ResetControllerState_trace (K : Consts) (device : Nat → Nat) (s : UHCI) :
    (ResetControllerState K device s).2.trace =
      s.trace ++ .Command K.kUHCI_CMD_HCRESET ::
        (List.replicate (resetPoll K device K.kUHCI_RESET_DELAY 0
            (Command K.kUHCI_CMD_HCRESET s)).1 (.IOSleep 1) ++
          if (resetPoll K device K.kUHCI_RESET_DELAY 0 (Command K.kUHCI_CMD_HCRESET s)).1 ≥
              K.kUHCI_RESET_DELAY then []
          else (if s._framesPaddr ≠ 0 then
              [.ioWrite32 .kUHCI_FRBASEADDR (s._framesPaddr % 4294967296)] else []) ++
            [.Command (K.kUHCI_CMD_MAXP ||| K.kUHCI_CMD_CF)]) := by
  have h5 := (resetPoll_spec K device K.kUHCI_RESET_DELAY 0
    (Command K.kUHCI_CMD_HCRESET s)).2.2.2.2.1
  rw [Nat.sub_zero] at h5
  have h0 : (Command K.kUHCI_CMD_HCRESET s).trace =
      s.trace ++ [.Command K.kUHCI_CMD_HCRESET] := rfl
  rw [h0] at h5
  have hC : ∀ (c : Nat) (u : UHCI), (Command c u).trace = u.trace ++ [.Command c] :=
    fun _ _ => rfl
  rw [ResetControllerState_eq]
  split_ifs with hge hp
  · rw [h5]; simp
  · rw [hC]
    simp only [ioWrite32]
    rw [h5]; simp
  · rw [hC, h5]; simp

/-- C19. For every sequence `device` of contents presented by the command register,
`ResetControllerState` returns after `reads` reads of the command register and `n` delays,
each of 1 ms, with `reads ≤ kUHCI_RESET_DELAY` and `n ≤ kUHCI_RESET_DELAY`: its effects are
the reset command, `n` delays of 1 ms, and, on success only, the write of the frame list
base register (if `_framesPaddr` is not null) and the command `MAXP | CF`.  The reset
command is issued once, before the polls.  On a timeout `n = reads = kUHCI_RESET_DELAY`; on
success `n` is the index of the first poll that reads `kUHCI_CMD_HCRESET` clear, and
`reads = n + 1`. -/
theorem reset_poll_bounded (K : Consts) (device : Nat → Nat) (s : UHCI) :
    ∃ n reads : Nat,
      resetPollCounted K device K.kUHCI_RESET_DELAY 0 (Command K.kUHCI_CMD_HCRESET s) 0 =
        (n, (resetPoll K device K.kUHCI_RESET_DELAY 0 (Command K.kUHCI_CMD_HCRESET s)).2,
          reads) ∧
      (resetPoll K device K.kUHCI_RESET_DELAY 0 (Command K.kUHCI_CMD_HCRESET s)).1 = n ∧
      reads ≤ K.kUHCI_RESET_DELAY ∧ n ≤ K.kUHCI_RESET_DELAY ∧
      (ResetControllerState K device s).2.trace =
        s.trace ++ .Command K.kUHCI_CMD_HCRESET :: (List.replicate n (.IOSleep 1) ++
          if (ResetControllerState K device s).1 = .kIOReturnTimeout then []
          else (if s._framesPaddr ≠ 0 then
              [.ioWrite32 .kUHCI_FRBASEADDR (s._framesPaddr % 4294967296)] else []) ++
            [.Command (K.kUHCI_CMD_MAXP ||| K.kUHCI_CMD_CF)]) ∧
      List.count (Effect.Command K.kUHCI_CMD_HCRESET)
        (Effect.Command K.kUHCI_CMD_HCRESET :: List.replicate n (Effect.IOSleep 1)) = 1 ∧
      ((ResetControllerState K device s).1 = .kIOReturnTimeout ∧
          n = K.kUHCI_RESET_DELAY ∧ reads = K.kUHCI_RESET_DELAY ∨
        (ResetControllerState K device s).1 = .kIOReturnSuccess ∧
          n < K.kUHCI_RESET_DELAY ∧ reads = n + 1 ∧
          device n % 65536 &&& K.kUHCI_CMD_HCRESET = 0 ∧
          ∀ k, k < n → device k % 65536 &&& K.kUHCI_CMD_HCRESET ≠ 0) := by
  obtain ⟨_, h2, h3, h4, _⟩ :=
    resetPoll_spec K device K.kUHCI_RESET_DELAY 0 (Command K.kUHCI_CMD_HCRESET s)
  obtain ⟨c1, c2, c3⟩ :=
    resetPollCounted_eq K device K.kUHCI_RESET_DELAY 0 (Command K.kUHCI_CMD_HCRESET s) 0
  have htr := ResetControllerState_trace K device s
  have hret := ResetControllerState_eq K device s
  obtain ⟨n, hn⟩ : ∃ n,
      (resetPoll K device K.kUHCI_RESET_DELAY 0 (Command K.kUHCI_CMD_HCRESET s)).1 = n :=
    ⟨_, rfl⟩
  rw [hn] at h2 h3 h4 c1 c3 htr hret
  rw [Nat.zero_add] at h2 h4 c3
  rw [Nat.zero_add, Nat.sub_zero] at c3
  refine ⟨n, (resetPollCounted K device K.kUHCI_RESET_DELAY 0
    (Command K.kUHCI_CMD_HCRESET s) 0).2.2, ?_, hn, ?_, h2, ?_, ?_, ?_⟩
  · rw [← c1, ← c2]
  · rw [c3]; split_ifs <;> omega
  · rw [htr, hret]
    by_cases hge : n ≥ K.kUHCI_RESET_DELAY
    · simp [hge]
    · simp [hge]
  · simp [List.count_cons, List.count_replicate]
  · by_cases hge : n ≥ K.kUHCI_RESET_DELAY
    · left
      exact ⟨by rw [hret, if_pos hge], Nat.le_antisymm h2 hge,
        by rw [c3, if_neg (Nat.not_lt.mpr hge)]⟩
    · right
      exact ⟨by rw [hret, if_neg hge], Nat.lt_of_not_le hge,
        by rw [c3, if_pos (Nat.lt_of_not_le hge)], h4 (Nat.lt_of_not_le hge),
        fun k hk => h3 k (Nat.zero_le _) hk⟩

/-! ## The ExpressCard port -/

theorem expressCardScan_found (P : Platform) (l : List IORegistryEntry) (portnum : Nat) :
    expressCardScan P l true portnum = (true, portnum) := by
  cases l <;> simp [expressCardScan]

theorem validatesEJD_isACPIPlatformDevice (e : IORegistryEntry) (h : e.validatesEJD = true) :
    e.isACPIPlatformDevice = true := by
  cases e with
  | mk location platformDevice children =>
    cases platformDevice <;> simp_all [IORegistryEntry.validatesEJD,
      IORegistryEntry.isACPIPlatformDevice]

theorem expressCardScan_eq (P : Platform) (l : List IORegistryEntry) (portnum : Nat) :
    expressCardScan P l false portnum =
      match l.find? IORegistryEntry.isExpressCardPort with
      | some e => (true, P.strtoul e.getLocation % 4294967296)
      | none => (false, portnum) := by
  induction l with
  | nil => rfl
  | cons e rest ih =>
    by_cases hleaf : e.isLeaf = true
    · by_cases hejd : e.validatesEJD = true
      · have hacpi := validatesEJD_isACPIPlatformDevice e hejd
        simp [expressCardScan, List.find?_cons, IORegistryEntry.isExpressCardPort, hleaf, hejd,
          hacpi, expressCardScan_found]
      · simp [expressCardScan, List.find?_cons, IORegistryEntry.isExpressCardPort, hleaf, hejd,
          ih]
    · simp [expressCardScan, List.find?_cons, IORegistryEntry.isExpressCardPort, hleaf, ih]

/-- C11. When the controller has an ACPI node `d` and the registry services succeed,
`ExpressCardPort` returns the value `strtoul(location, NULL, 10)` (as a 32 bit number) of
the location string of the first entry, in the order of the recursive iterator over the
entries below `d`, that has no children and validates `_EJD`, and 0 when there is no such
entry; it returns 0 when the controller has no ACPI node.  In particular, with a single
ejectable leaf at location `"3"` below the node, and a `strtoul` reading `"3"` as 3, it
returns 3. -/
theorem expressCardPort_first_ejectable_leaf (P : Platform) (acpiPath : Option String) :
    (∀ d, CopyACPIDevice P acpiPath = some d → P.getPlane = true → P.iterateOver = true →
      ExpressCardPort P acpiPath =
        match d.iterateRecursively.find? IORegistryEntry.isExpressCardPort with
        | some e => P.strtoul e.getLocation % 4294967296
        | none => 0) ∧
    (CopyACPIDevice P acpiPath = none → ExpressCardPort P acpiPath = 0) ∧
    (∀ location ejd, CopyACPIDevice P acpiPath =
        some (.mk location (some ejd) [.mk "3" (some true) []]) →
      P.getPlane = true → P.iterateOver = true → P.strtoul "3" = 3 →
      ExpressCardPort P acpiPath = 3) := by
  have hmain : ∀ d, CopyACPIDevice P acpiPath = some d → P.getPlane = true →
      P.iterateOver = true →
      ExpressCardPort P acpiPath =
        match d.iterateRecursively.find? IORegistryEntry.isExpressCardPort with
        | some e => P.strtoul e.getLocation % 4294967296
        | none => 0 := by
    intro d hd hplane hiter
    simp only [ExpressCardPort, hd, HasExpressCardUSB, hplane, hiter, not_true_eq_false,
      if_false, if_true, expressCardScan_eq]
    cases d.iterateRecursively.find? IORegistryEntry.isExpressCardPort <;> rfl
  refine ⟨hmain, ?_, ?_⟩
  · intro hnone
    simp only [ExpressCardPort, hnone]
  · intro location ejd hd hplane hiter h3
    rw [hmain _ hd hplane hiter]
    simp [IORegistryEntry.iterateRecursively, iterateChildren,
      IORegistryEntry.isExpressCardPort, IORegistryEntry.isLeaf, IORegistryEntry.validatesEJD,
      IORegistryEntry.getLocation, h3]

theorem expressCardPort_first_ejectable_leaf_witness :
    CopyACPIDevice (expressCardPlatform expressCardTopology)
      (some "IOACPIPlane:/_SB/PCI0/USB1") = some expressCardTopology ∧
    ExpressCardPort (expressCardPlatform expressCardTopology)
      (some "IOACPIPlane:/_SB/PCI0/USB1") = 3 ∧
    ExpressCardPort (expressCardPlatform singlePortTopology)
      (some "IOACPIPlane:/_SB/PCI0/USB1") = 3 ∧
    ExpressCardPort (expressCardPlatform expressCardTopology) none = 0 :=
  ⟨rfl,
    (expressCardPort_first_ejectable_leaf (expressCardPlatform expressCardTopology)
      (some "IOACPIPlane:/_SB/PCI0/USB1")).1 expressCardTopology rfl rfl rfl,
    (expressCardPort_first_ejectable_leaf (expressCardPlatform singlePortTopology)
      (some "IOACPIPlane:/_SB/PCI0/USB1")).2.2 "1D" false rfl rfl rfl (by decide),
    (expressCardPort_first_ejectable_leaf (expressCardPlatform expressCardTopology)
      none).2.1 rfl⟩

/-! ## The sleep notification -/

theorem resumeEnable_bits (n : Nat) :
    (clearBits 0x03 (1 <<< n)).testBit n = false ∧
    ∀ j, j < 2 → j ≠ n → (clearBits 0x03 (1 <<< n)).testBit j = true := by
  have h3 : ∀ j, (3 : Nat).testBit j = decide (j < 2) := by
    intro j
    exact Nat.testBit_two_pow_sub_one 2 j
  constructor
  · rw [testBit_clearBits, Nat.one_shiftLeft, Nat.testBit_two_pow_self]
    simp
  · intro j hj hne
    rw [testBit_clearBits, Nat.one_shiftLeft, Nat.testBit_two_pow, h3]
    simp [hj, Ne.symm hne]

/-- C12. On a call named `SetDebugDriverPowerState`, with `kUHCI_PCI_RES` a one byte
offset: the effects of `callPlatformFunction` are the configuration write, if any, followed
by the call of the superclass, and a configuration write is made exactly when `param1` is
null, `_badExpressCardAttached` is true, `_ExpressCardPort > 0` and the errata bits include
`kErrataSupportsPortResumeEnable`; it is then a write to `kUHCI_PCI_RES` of the value
`0x03 & ~(1 << (_ExpressCardPort-1))`.  For a port number from 1 to 31 this value has the
bit of the port clear and each other bit of the two root ports set.  With `param1` non-null
no configuration write is made. -/
theorem sleep_masks_expressCard_resume (K : Consts) (functionName : String) (param1 : Bool)
    {ρ : Type} (superResult : ρ) (s : UHCI)
    (hname : functionName = "SetDebugDriverPowerState")
    (hoff : K.kUHCI_PCI_RES < 256) :
    (callPlatformFunction K functionName param1 superResult s).1 = superResult ∧
    (callPlatformFunction K functionName param1 superResult s).2.trace =
      s.trace ++
        ((if param1 = false ∧ s._badExpressCardAttached = true ∧ 0 < s._ExpressCardPort ∧
            s._errataBits &&& K.kErrataSupportsPortResumeEnable ≠ 0 then
          [.configWrite8 K.kUHCI_PCI_RES (clearBits 0x03 (1 <<< (s._ExpressCardPort - 1)))]
          else []) ++
        [.super_callPlatformFunction functionName]) ∧
    (∀ offset data, Effect.configWrite8 offset data ∈
        (if param1 = false ∧ s._badExpressCardAttached = true ∧ 0 < s._ExpressCardPort ∧
            s._errataBits &&& K.kErrataSupportsPortResumeEnable ≠ 0 then
          [Effect.configWrite8 K.kUHCI_PCI_RES
            (clearBits 0x03 (1 <<< (s._ExpressCardPort - 1)))]
          else []) ++
        [Effect.super_callPlatformFunction functionName] ↔
      (param1 = false ∧ s._badExpressCardAttached = true ∧ 0 < s._ExpressCardPort ∧
          s._errataBits &&& K.kErrataSupportsPortResumeEnable ≠ 0) ∧
        offset = K.kUHCI_PCI_RES ∧
        data = clearBits 0x03 (1 <<< (s._ExpressCardPort - 1))) ∧
    (0 < s._ExpressCardPort → s._ExpressCardPort ≤ 31 →
      (clearBits 0x03 (1 <<< (s._ExpressCardPort - 1))).testBit (s._ExpressCardPort - 1)
        = false ∧
      ∀ j, j < 2 → j ≠ s._ExpressCardPort - 1 →
        (clearBits 0x03 (1 <<< (s._ExpressCardPort - 1))).testBit j = true) ∧
    (param1 = true →
      (callPlatformFunction K functionName param1 superResult s).2.trace =
        s.trace ++ [.super_callPlatformFunction functionName]) := by
  have hcb : clearBits 0x03 (1 <<< (s._ExpressCardPort - 1)) % 256 =
      clearBits 0x03 (1 <<< (s._ExpressCardPort - 1)) :=
    Nat.mod_eq_of_lt (lt_trans (clearBits_lt 3 _ 2 (by decide)) (by decide))
  have hcmp : strncmpEq functionName "SetDebugDriverPowerState" 24 = true := by
    rw [hname]; decide
  have htrace : (callPlatformFunction K functionName param1 superResult s).2.trace =
      s.trace ++
        ((if param1 = false ∧ s._badExpressCardAttached = true ∧ 0 < s._ExpressCardPort ∧
            s._errataBits &&& K.kErrataSupportsPortResumeEnable ≠ 0 then
          [.configWrite8 K.kUHCI_PCI_RES (clearBits 0x03 (1 <<< (s._ExpressCardPort - 1)))]
          else []) ++
        [.super_callPlatformFunction functionName]) := by
    simp only [callPlatformFunction, hcmp, if_true, configWrite8]
    cases param1
    · by_cases hc : s._badExpressCardAttached = true ∧ s._ExpressCardPort > 0 ∧
          s._errataBits &&& K.kErrataSupportsPortResumeEnable ≠ 0
      · simp [hc, hcb, Nat.mod_eq_of_lt hoff]
      · simp [hc]
    · simp
  refine ⟨rfl, htrace, ?_, fun _ _ => resumeEnable_bits _, ?_⟩
  · intro offset data
    by_cases hc : param1 = false ∧ s._badExpressCardAttached = true ∧ 0 < s._ExpressCardPort ∧
        s._errataBits &&& K.kErrataSupportsPortResumeEnable ≠ 0
    · simp [hc]
    · simp [hc]
  · intro hp
    rw [htrace]
    simp [hp]

theorem sleep_masks_expressCard_resume_witness :
    uhciConsts.kUHCI_PCI_RES < 256 ∧
    (callPlatformFunction uhciConsts "SetDebugDriverPowerState" false IOReturn.kIOReturnSuccess
      expressCardController).2.trace =
      [.configWrite8 0xC4 0x01, .super_callPlatformFunction "SetDebugDriverPowerState"] ∧
    (callPlatformFunction uhciConsts "SetDebugDriverPowerState" true IOReturn.kIOReturnSuccess
      expressCardController).2.trace =
      [.super_callPlatformFunction "SetDebugDriverPowerState"] :=
  ⟨by decide,
    (sleep_masks_expressCard_resume uhciConsts "SetDebugDriverPowerState" false
      IOReturn.kIOReturnSuccess expressCardController rfl (by decide)).2.1,
    (sleep_masks_expressCard_resume uhciConsts "SetDebugDriverPowerState" true
      IOReturn.kIOReturnSuccess expressCardController rfl (by decide)).2.2.2.2 rfl⟩

end AppleUSBUHCI
